import Mathlib

/-!
Verification of the ElectriSim-AI circuit analysis and safety assessment
engine (`src/utils/electricalCalculations.ts` and
`src/agents/SafetyAssessmentAgent.ts`), as a shallow embedding.

Modelling conventions, applied uniformly:
* JS numbers are modelled as exact rationals (`ℚ`).  Division by zero in `ℚ`
  yields `0`; at every source location where a JS division can produce
  `Infinity`/`NaN` the source immediately replaces a non-finite result by `0`
  (or guards the divisor), so the two semantics agree and `Number.isFinite`
  tests are identically true in the model.
* `Math.sqrt(3)` and `Math.PI` are irrational; the model uses the exact
  decimal expansions of their IEEE-754 double approximations (`sqrt3`, `piQ`),
  keeping every definition computable.
* JS objects keyed by component id are association lists (`QMap`) with
  JS-object update semantics (`setk` updates in place or appends; keys of a
  JS object are unique, and `setk`-built maps keep that invariant).
* The JS idiom `x || d` on an optional numeric field (`undefined` and `0`
  are falsy) is `jsOr`.
* Issue ids, messages and hazard descriptions are template strings in the
  source (`` `mcb-overcurrent-${id}` ``, `toFixed` interpolation...).  The
  templates are mutually non-overlapping and injective in their arguments,
  so they are modelled by inductive types carrying the exact arguments; the
  `reportedShorts` keys `` `short-${id}` `` are likewise modelled by the id.
* `forEach`+`push` loops are folds appending singleton lists.
-/

-- The Batteries rational arithmetic is `@[irreducible]`, which blocks the
-- `decide`-based evaluation of the embedding on concrete circuits; restore
-- the default reducibility inside this file only.
set_option allowUnsafeReducibility true

attribute [local semireducible] Rat.mul Rat.add Rat.sub Rat.inv Rat.ofScientific

namespace ElectriSim

/-- JS `x || d` for an optional numeric property: `undefined` and `0` are
falsy and give the default; any other number is kept. -/
def jsOr (x : Option ℚ) (d : ℚ) : ℚ :=
  match x with
  | some v => if v = 0 then d else v
  | none => d

/-- Reading a possibly absent numeric map entry with `|| 0`. -/
def jsNum (x : Option ℚ) : ℚ := jsOr x 0

/-- JS truthiness of an optional numeric property (`undefined` and `0` falsy). -/
def falsyQ (o : Option ℚ) : Prop := o = none ∨ o = some 0

instance (o : Option ℚ) : Decidable (falsyQ o) := by
  unfold falsyQ; infer_instance

/-- Association-list model of a JS object with string keys and `ℚ` values. -/
abbrev QMap := List (String × ℚ)

/-- `m[k] = v`: update the entry for `k` in place, or append a new one. -/
def setk : QMap → String → ℚ → QMap
  | [], k, v => [(k, v)]
  | (k0, v0) :: rest, k, v =>
      if k0 = k then (k0, v) :: rest else (k0, v0) :: setk rest k v

/-- `m[k]`: look up the entry for `k`. -/
def getk : QMap → String → Option ℚ
  | [], _ => none
  | (k0, v0) :: rest, k => if k0 = k then some v0 else getk rest k

/-- `Object.keys(m)` (insertion order). -/
def keysOf (m : QMap) : List String := m.map Prod.fst

/-- `Object.values(m).reduce((s, x) => s + x, 0)`. -/
def valuesSum (m : QMap) : ℚ := (m.map Prod.snd).sum

/-- The optional per-component `properties` record of `circuit.types.ts`
(only the numeric fields the engine reads). -/
structure Properties where
  powerConsumption : Option ℚ := none
  operatingVoltage : Option ℚ := none
  powerFactor : Option ℚ := none
  tripCurrent : Option ℚ := none
  fuseRating : Option ℚ := none
  currentRating : Option ℚ := none
  voltageRating : Option ℚ := none
  powerRating : Option ℚ := none
  turnsRatioVal : Option ℚ := none
  primaryVoltage : Option ℚ := none
deriving DecidableEq

/-- A circuit component: `type` of the source is `ctype` (`type` is reserved). -/
structure Component where
  id : String
  ctype : String
  value : ℚ
  properties : Properties := {}
deriving DecidableEq

/-- A wire between two components (`from`/`to` of the source are `src`/`dst`). -/
structure Connection where
  src : String
  dst : String
  fromPort : Nat := 0
  toPort : Nat := 0
deriving DecidableEq

/-- `Circuit.metadata` (only the fields the engine reads). -/
structure Metadata where
  voltage : Option ℚ := none
  phase : Option String := none
deriving DecidableEq

structure Circuit where
  components : List Component
  connections : List Connection := []
  metadata : Option Metadata := none
deriving DecidableEq

/-- The `id` template strings of `CircuitIssue`s emitted by `analyzeCircuit`,
one constructor per template. -/
inductive IssueId
  | noPowerSource
  | mcbOvercurrent (cid : String)
  | fuseOvercurrent (cid : String)
  | overpower (cid : String)
  | invalidVoltage (cid : String)
  | invalidCurrent (cid : String)
  | invalidPower (cid : String)
  | highCurrent
  | lowEfficiency
deriving DecidableEq

inductive IssueKind
  | error
  | warning
  | info
deriving DecidableEq

inductive Severity
  | critical
  | high
  | medium
  | low
deriving DecidableEq

/-- `message` template strings with their interpolated numbers carried exactly
(the source renders them with `toFixed`). -/
inductive IssueMsg
  | noPowerMsg
  | mcbTrip (totalCurrent rating : ℚ)
  | fuseBlow (totalCurrent rating : ℚ)
  | resistorOverpower (cid : String)
  | invalidVoltageMsg (v : ℚ)
  | invalidCurrentMsg (i : ℚ)
  | invalidPowerMsg (p : ℚ)
  | highCurrentMsg (i : ℚ)
  | lowEfficiencyMsg (e : ℚ)
deriving DecidableEq

/-- `recommendation` template strings of `analyzeCircuit` issues. -/
inductive IssueRec
  | addSource
  | useMcb (rating : ℤ)
  | useFuse (rating : ℤ)
  | useHigherPowerResistor (p : ℚ)
  | checkConnections
  | checkLoads
  | checkPowerRatings
  | divideCircuits
  | improvePowerFactor
deriving DecidableEq

structure CircuitIssue where
  id : IssueId
  kind : IssueKind
  severity : Severity
  componentId : Option String := none
  message : IssueMsg
  recommendation : IssueRec
deriving DecidableEq

structure CircuitAnalysis where
  voltages : QMap
  currents : QMap
  power : QMap
  totalPower : ℚ
  efficiency : ℚ
  issues : List CircuitIssue
deriving DecidableEq

/-! ### `ElectricalCalculations` helpers used by the analysed code paths -/

/-- `calculatePower(voltage, current)` with the default `powerFactor = 1`. -/
def calculatePower (voltage current : ℚ) : ℚ := voltage * current

/-- `calculateGroundFaultCurrent(voltage, resistance)`. -/
def calculateGroundFaultCurrent (voltage resistance : ℚ) : ℚ :=
  if resistance > 0 then voltage / resistance else 0

/-- Exact decimal value of the IEEE-754 double `Math.PI`. -/
def piQ : ℚ := 3.141592653589793

/-- Exact decimal value of the IEEE-754 double `Math.sqrt(3)`. -/
def sqrt3 : ℚ := 1.7320508075688772

/-- `calculateArcFlashEnergy(voltage, shortCircuitCurrent, clearingTime)`:
`1.732 * V * I_sc * t / (4 * π * d²)` with the hard-coded working distance
`d = 45.72` cm.  The source gives `clearingTime` the default `0.1`; both
call sites pass it explicitly, so the model takes it as a plain argument. -/
def calculateArcFlashEnergy (voltage shortCircuitCurrent clearingTime : ℚ) : ℚ :=
  (1.732 * voltage * shortCircuitCurrent * clearingTime) / (4 * piQ * 45.72 * 45.72)

/-! ### `analyzeCircuit`, staged exactly as the numbered steps of the source -/

def applianceTypes : List String :=
  ["fan", "light", "tv", "ac", "motor", "heater", "refrigerator",
   "washing-machine", "microwave", "ups", "inverter", "dishwasher",
   "water-heater", "electric-stove", "electric-oven", "heat-pump",
   "electric-boiler"]

def protectionTypes : List String :=
  ["mcb", "rccb", "fuse", "gfci", "afci", "spd", "surge-protector",
   "two-way-switch", "switch"]

/-- `circuit.components.filter(c => c.type === 'battery' || c.type === 'socket')`. -/
def powerSourcesOf (c : Circuit) : List Component :=
  c.components.filter (fun comp => decide (comp.ctype = "battery" ∨ comp.ctype = "socket"))

/-- `circuit.metadata?.voltage && circuit.metadata.voltage > 0 ? ... : 230`. -/
def metadataVoltageOf (c : Circuit) : ℚ :=
  match c.metadata with
  | some m =>
      match m.voltage with
      | some v => if v > 0 then v else 230
      | none => 230
  | none => 230

/-- The first power source whose `value` is a positive number. -/
def validSourceOf (c : Circuit) : Option Component :=
  (powerSourcesOf c).find? (fun s => decide (s.value > 0))

/-- `sourceVoltage`: value of the first positive-valued source, else the
metadata fallback. -/
def sourceVoltageOf (c : Circuit) : ℚ :=
  match validSourceOf c with
  | some s => s.value
  | none => metadataVoltageOf c

/-- `circuit.metadata?.phase === 'three'`. -/
def isThreePhaseOf (c : Circuit) : Bool :=
  match c.metadata with
  | some m => m.phase == some "three"
  | none => false

def appliancesOf (c : Circuit) : List Component :=
  c.components.filter (fun comp => applianceTypes.contains comp.ctype)

def protectionDevicesOf (c : Circuit) : List Component :=
  c.components.filter (fun comp => protectionTypes.contains comp.ctype)

def junctionsOf (c : Circuit) : List Component :=
  c.components.filter (fun comp => decide (comp.ctype = "junction"))

/-- Total load: sum of `properties.powerConsumption || 0` over appliances
(Step 8 of the source recomputes the same sum as `totalPower`). -/
def totalLoadOf (c : Circuit) : ℚ :=
  (appliancesOf c).foldl (fun s a => s + jsOr a.properties.powerConsumption 0) 0

/-- The mutable state of `analyzeCircuit`: the three maps and the issues. -/
structure AState where
  volts : QMap := []
  currs : QMap := []
  pows : QMap := []
  issues : List CircuitIssue := []
deriving DecidableEq

def initBody (st : AState) (comp : Component) : AState :=
  { st with volts := setk st.volts comp.id 0,
            currs := setk st.currs comp.id 0,
            pows := setk st.pows comp.id 0 }

/-- Initialize all components with default values (`0` in all three maps). -/
def initState (comps : List Component) : AState :=
  comps.foldl initBody {}

/-- `source.value && source.value > 0 ? source.value : sourceVoltage`. -/
def resolvedVoltage (sv : ℚ) (s : Component) : ℚ :=
  if s.value > 0 then s.value else sv

def step1Body (sv : ℚ) (st : AState) (s : Component) : AState :=
  { st with volts := setk st.volts s.id (resolvedVoltage sv s) }

/-- Step 1: set power source voltages. -/
def step1Sources (sources : List Component) (sv : ℚ) (st : AState) : AState :=
  sources.foldl (step1Body sv) st

/-- Per-appliance current.  A JS `Infinity` (zero divisor) or negative result
is reset to `0` by the source; in `ℚ` a zero divisor already yields `0`. -/
def applianceCurrent (threePhase : Bool) (sv : ℚ) (app : Component) : ℚ :=
  let appPower := jsOr app.properties.powerConsumption 0
  let appVoltage := jsOr app.properties.operatingVoltage sv
  let pf := jsOr app.properties.powerFactor 0.8
  let raw :=
    if threePhase then
      if appPower > 0 then appPower / (sqrt3 * appVoltage * pf) else 0
    else
      if appPower > 0 then appPower / (appVoltage * pf) else 0
  if raw < 0 then 0 else raw

def step2Body (threePhase : Bool) (sv : ℚ) (p : AState × QMap)
    (app : Component) : AState × QMap :=
  let appPower := jsOr app.properties.powerConsumption 0
  let appVoltage := jsOr app.properties.operatingVoltage sv
  let cur := applianceCurrent threePhase sv app
  ({ p.1 with volts := setk p.1.volts app.id appVoltage,
              currs := setk p.1.currs app.id cur,
              pows := setk p.1.pows app.id appPower },
   setk p.2 app.id cur)

/-- Step 2: appliance voltages, currents and powers; also returns the
`applianceCurrents` object. -/
def step2Appliances (apps : List Component) (threePhase : Bool) (sv : ℚ)
    (st : AState) : AState × QMap :=
  apps.foldl (step2Body threePhase sv) (st, [])

def mcbIssue (cid : String) (tc rating : ℚ) : CircuitIssue :=
  { id := .mcbOvercurrent cid, kind := .error, severity := .critical,
    componentId := some cid, message := .mcbTrip tc rating,
    recommendation := .useMcb ⌈tc * 1.25⌉ }

def fuseIssue (cid : String) (tc rating : ℚ) : CircuitIssue :=
  { id := .fuseOvercurrent cid, kind := .error, severity := .critical,
    componentId := some cid, message := .fuseBlow tc rating,
    recommendation := .useFuse ⌈tc * 1.25⌉ }

def step4Body (sv tc : ℚ) (st : AState) (d : Component) : AState :=
  let st := { st with volts := setk st.volts d.id sv,
                      currs := setk st.currs d.id tc,
                      pows := setk st.pows d.id (calculatePower sv tc) }
  if d.ctype = "mcb" then
    if tc > jsOr d.properties.tripCurrent 16 then
      { st with issues := st.issues ++ [mcbIssue d.id tc (jsOr d.properties.tripCurrent 16)] }
    else st
  else if d.ctype = "fuse" then
    if tc > jsOr d.properties.fuseRating 16 then
      { st with issues := st.issues ++ [fuseIssue d.id tc (jsOr d.properties.fuseRating 16)] }
    else st
  else if d.ctype = "two-way-switch" ∨ d.ctype = "switch" then
    { st with pows := setk st.pows d.id (calculatePower sv (tc * 0.01)) }
  else if d.ctype = "gfci" ∨ d.ctype = "afci" ∨ d.ctype = "surge-protector" then
    { st with currs := setk st.currs d.id (min tc 2),
              pows := setk st.pows d.id (calculatePower sv (min tc 2)) }
  else st

/-- Step 4: protection devices pass through the supply voltage and carry the
total load current; `mcb`/`fuse` rating checks, switch and
gfci/afci/surge-protector special cases. -/
def step4Protection (devices : List Component) (sv tc : ℚ) (st : AState) : AState :=
  devices.foldl (step4Body sv tc) st

/-- `circuit.connections.some(conn => (conn.from === j && conn.to === a) ||
(conn.to === j && conn.from === a))`. -/
def connectedTo (conns : List Connection) (jid aid : String) : Bool :=
  conns.any (fun conn =>
    decide ((conn.src = jid ∧ conn.dst = aid) ∨ (conn.dst = jid ∧ conn.src = aid)))

def step5Body (apps : List Component) (conns : List Connection) (ac : QMap)
    (sv : ℚ) (st : AState) (j : Component) : AState :=
  let connApps := apps.filter (fun app => connectedTo conns j.id app.id)
  let jc := connApps.foldl (fun s app => s + jsNum (getk ac app.id)) 0
  { st with volts := setk st.volts j.id sv,
            currs := setk st.currs j.id jc,
            pows := setk st.pows j.id (calculatePower sv jc) }

/-- Step 5: junctions sum the currents of the appliances wired to them. -/
def step5Junctions (junctions apps : List Component) (conns : List Connection)
    (ac : QMap) (sv : ℚ) (st : AState) : AState :=
  junctions.foldl (step5Body apps conns ac sv) st

def overpowerIssue (cid : String) (p : ℚ) : CircuitIssue :=
  { id := .overpower cid, kind := .warning, severity := .high,
    componentId := some cid, message := .resistorOverpower cid,
    recommendation := .useHigherPowerResistor p }

/-- `component.value > 0 && component.value < 1000000 ? component.value : 1000`. -/
def safeResistance (v : ℚ) : ℚ := if v > 0 ∧ v < 1000000 then v else 1000

/-- The per-component decision of Step 6: `none` when the component is skipped
(already processed, or a `ups`/`inverter` that is listed as an appliance),
otherwise the `(voltage, current, power)` triple written at its id together
with the issues pushed.  Every reached branch of the source switch writes
exactly one value to each of the three maps at `component.id`. -/
def step6New (processed : List String) (apps : List Component)
    (threePhase : Bool) (sv tc : ℚ) (comp : Component) : Option (ℚ × ℚ × ℚ) :=
  if comp.id ∈ processed then none
  else if comp.ctype = "ground" ∨ comp.ctype = "lightning-rod" then
    some (0, 0, 0)
  else if comp.ctype = "voltmeter" then
    some (sv, 0.001, calculatePower sv 0.001)
  else if comp.ctype = "ammeter" then
    some (0.1, tc, calculatePower 0.1 tc)
  else if comp.ctype = "wattmeter" then
    some (sv, tc, calculatePower sv tc)
  else if comp.ctype = "transformer" then
    let tr := jsOr comp.properties.turnsRatioVal 1
    let pv := jsOr comp.properties.primaryVoltage sv
    some (pv / tr, tc * tr, calculatePower (pv / tr) (tc * tr))
  else if comp.ctype = "resistor" then
    some (sv, sv / safeResistance comp.value,
      calculatePower sv (sv / safeResistance comp.value))
  else if comp.ctype = "ups" ∨ comp.ctype = "inverter" then
    -- dead in practice: `ups`/`inverter` are in `applianceTypes`, hence
    -- always in `processed`; kept for faithfulness to the source switch
    if apps.any (fun a => a.id == comp.id) then none
    else
      let upsPower := jsOr comp.properties.powerConsumption 1000
      let upsVoltage := jsOr comp.properties.operatingVoltage sv
      let upsPf := jsOr comp.properties.powerFactor 0.8
      let upsCurrent :=
        if threePhase then
          if upsPower > 0 then upsPower / (sqrt3 * upsVoltage * upsPf) else 0
        else
          if upsPower > 0 then upsPower / (upsVoltage * upsPf) else 0
      some (upsVoltage, upsCurrent, upsPower)
  else some (sv, 0, 0)

/-- The power-rating check of the `resistor` branch of Step 6. -/
def resistorIssues (sv : ℚ) (comp : Component) : List CircuitIssue :=
  match comp.properties.powerRating with
  | some pr =>
      if pr ≠ 0 ∧ calculatePower sv (sv / safeResistance comp.value) > pr then
        [overpowerIssue comp.id (calculatePower sv (sv / safeResistance comp.value))]
      else []
  | none => []

/-- The issues pushed by one component of Step 6: only the (reached)
`resistor` branch ever pushes one. -/
def step6NewsOf (processed : List String) (sv : ℚ) (comp : Component) :
    List CircuitIssue :=
  if comp.id ∉ processed ∧ comp.ctype = "resistor" then resistorIssues sv comp
  else []

def step6Body (processed : List String) (apps : List Component)
    (threePhase : Bool) (sv tc : ℚ) (st : AState) (comp : Component) : AState :=
  match step6New processed apps threePhase sv tc comp with
  | none => st
  | some vals =>
      { volts := setk st.volts comp.id vals.1,
        currs := setk st.currs comp.id vals.2.1,
        pows := setk st.pows comp.id vals.2.2,
        issues := st.issues ++ step6NewsOf processed sv comp }

/-- Step 6: remaining component types, skipping everything already processed. -/
def step6Others (comps : List Component) (processed : List String)
    (apps : List Component) (threePhase : Bool) (sv tc : ℚ) (st : AState) : AState :=
  comps.foldl (step6Body processed apps threePhase sv tc) st

def invalidVoltageIssue (cid : String) (v : ℚ) : CircuitIssue :=
  { id := .invalidVoltage cid, kind := .error, severity := .critical,
    componentId := some cid, message := .invalidVoltageMsg v,
    recommendation := .checkConnections }

def invalidCurrentIssue (cid : String) (i : ℚ) : CircuitIssue :=
  { id := .invalidCurrent cid, kind := .error, severity := .critical,
    componentId := some cid, message := .invalidCurrentMsg i,
    recommendation := .checkLoads }

def invalidPowerIssue (cid : String) (p : ℚ) : CircuitIssue :=
  { id := .invalidPower cid, kind := .error, severity := .critical,
    componentId := some cid, message := .invalidPowerMsg p,
    recommendation := .checkPowerRatings }

/-- One range check of Step 7: if the value stored at `k` is above `hi` or
below `neg`, clamp it to `[0, hi]` and report the offending value. -/
def validStep (m : QMap) (k : String) (hi neg : ℚ) : QMap × Option ℚ :=
  match getk m k with
  | some x =>
      if x > hi ∨ x < neg then (setk m k (max 0 (min hi x)), some x) else (m, none)
  | none => (m, none)

def validateV (st : AState) (k : String) : AState :=
  let r := validStep st.volts k 1000 (-100)
  { st with volts := r.1,
            issues := st.issues ++
              (match r.2 with
               | some v => [invalidVoltageIssue k v]
               | none => []) }

def validateI (st : AState) (k : String) : AState :=
  let r := validStep st.currs k 10000 (-100)
  { st with currs := r.1,
            issues := st.issues ++
              (match r.2 with
               | some i => [invalidCurrentIssue k i]
               | none => []) }

def validateP (st : AState) (k : String) : AState :=
  let r := validStep st.pows k 10000000 (-1000)
  { st with pows := r.1,
            issues := st.issues ++
              (match r.2 with
               | some p => [invalidPowerIssue k p]
               | none => []) }

def validateKey (st : AState) (k : String) : AState :=
  validateP (validateI (validateV st k) k) k

/-- Step 7: validate all calculated values, iterating `Object.keys(voltages)`. -/
def step7Validate (ks : List String) (st : AState) : AState :=
  ks.foldl validateKey st

/-- The state of `analyzeCircuit` after Step 6, before validation. -/
structure PreResult where
  st : AState
  applianceCurrents : QMap
  sv : ℚ
  tc : ℚ
deriving DecidableEq

/-- Steps 1-6 of `analyzeCircuit` (only reached when a power source exists). -/
def preAnalysis (c : Circuit) : PreResult :=
  let sources := powerSourcesOf c
  let sv := sourceVoltageOf c
  let threePhase := isThreePhaseOf c
  let apps := appliancesOf c
  let st := initState c.components
  let st := step1Sources sources sv st
  let p := step2Appliances apps threePhase sv st
  let st := p.1
  let ac := p.2
  let tc := valuesSum ac
  let devices := protectionDevicesOf c
  let st := step4Protection devices sv tc st
  let junctions := junctionsOf c
  let st := step5Junctions junctions apps c.connections ac sv st
  let processed := sources.map (·.id) ++ apps.map (·.id) ++ devices.map (·.id)
      ++ junctions.map (·.id)
  let st := step6Others c.components processed apps threePhase sv tc st
  ⟨st, ac, sv, tc⟩

/-- Total current: sum of the `applianceCurrents` values. -/
def totalCurrentOf (c : Circuit) : ℚ := (preAnalysis c).tc

def noPowerIssue : CircuitIssue :=
  { id := .noPowerSource, kind := .error, severity := .critical,
    componentId := none, message := .noPowerMsg, recommendation := .addSource }

def highCurrentIssue (tc : ℚ) : CircuitIssue :=
  { id := .highCurrent, kind := .warning, severity := .high, componentId := none,
    message := .highCurrentMsg tc, recommendation := .divideCircuits }

def lowEfficiencyIssue (e : ℚ) : CircuitIssue :=
  { id := .lowEfficiency, kind := .warning, severity := .medium, componentId := none,
    message := .lowEfficiencyMsg e, recommendation := .improvePowerFactor }

/-- `ElectricalCalculations.analyzeCircuit`. -/
def analyzeCircuit (c : Circuit) : CircuitAnalysis :=
  if (powerSourcesOf c).isEmpty then
    { voltages := [], currents := [], power := [], totalPower := 0,
      efficiency := 0, issues := [noPowerIssue] }
  else
    let pre := preAnalysis c
    let st := step7Validate (keysOf pre.st.volts) pre.st
    let totalLoad := totalLoadOf c
    -- Step 8 recomputes the same appliance sum as `totalPower`
    let totalPower := totalLoadOf c
    let efficiency :=
      if totalLoad > 0 ∧ totalPower > 0 then min 100 ((totalPower / totalLoad) * 100)
      else 100
    let issues := st.issues
      ++ (if pre.tc > 100 ∧ pre.tc < 10000 then [highCurrentIssue pre.tc] else [])
    let issues := issues
      ++ (if efficiency < 80 ∧ totalLoad > 0 ∧ efficiency > 0 then
            [lowEfficiencyIssue efficiency]
          else [])
    { voltages := st.volts, currents := st.currs, power := st.pows,
      totalPower := totalPower, efficiency := efficiency, issues := issues }

/-! ### `SafetyAssessmentAgent` -/

inductive HazardType
  | overcurrent
  | overvoltage
  | short_circuit
  | ground_fault
  | thermal
  | arc_flash
deriving DecidableEq

/-- The `id` template strings of `SafetyHazard`s, one constructor per template. -/
inductive HazardId
  | necOvercurrent (cid : String)
  | componentOvercurrent (cid : String)
  | necOvervoltage (cid : String)
  | componentOvervoltage (cid : String)
  | touchVoltageAccessible
  | shortCircuit (cid : String)
  | noGround
  | groundFault (cid : String)
  | thermal (cid : String)
  | thermalDensity (cid : String)
  | arcFlash (cid : String)
deriving DecidableEq

/-- Hazard `description` template strings with their interpolated numbers. -/
inductive HazardDesc
  | necCurrent (i : ℚ)
  | compCurrent (cid : String) (i r : ℚ)
  | necVoltage (v : ℚ)
  | compVoltage (cid : String) (v r : ℚ)
  | touchVoltage (n : Nat)
  | shortDetected (i v : ℚ)
  | noGroundDesc
  | groundFaultDesc (i : ℚ)
  | thermalDesc (cid : String) (p r : ℚ)
  | thermalDensityDesc (p : ℚ)
  | arcFlashDesc (e : ℚ)
deriving DecidableEq

structure SafetyHazard where
  id : HazardId
  htype : HazardType
  severity : Severity
  componentId : Option String := none
  description : HazardDesc
  mitigation : String
deriving DecidableEq

inductive CStatus
  | compliant
  | non_compliant
  | warning
deriving DecidableEq

/-- Compliance `description` fragments (the source joins them on a pipe). -/
inductive CDesc
  | insufficientData
  | necMaxV (v : ℚ)
  | necMaxI (i : ℚ)
  | necWithin (v i : ℚ)
  | missingCritical (ts : List String)
  | considerAdding (ts : List String)
  | allCriticalPresent
  | oshaUnavailable
  | oshaExceeds (v : ℚ)
  | oshaWithin (v : ℚ)
  | nfpaNoSources
  | nfpaNoEnergy
  | nfpaExceeds (e : ℚ)
  | nfpaWithin (e : ℚ)
deriving DecidableEq

structure ComplianceCheck where
  standard : String
  status : CStatus
  description : List CDesc
  requirement : String
deriving DecidableEq

inductive RiskLevel
  | low
  | medium
  | high
  | critical
deriving DecidableEq

structure SafetyAssessment where
  safetyScore : ℤ
  hazards : List SafetyHazard
  compliance : List ComplianceCheck
  recommendations : List String
  riskLevel : RiskLevel
deriving DecidableEq

/-- `validateAnalysisValues`: clamp-to-zero sanitation of the analysis maps;
appliance powers are taken from `powerConsumption` directly when truthy. -/
def validateAnalysisValues (analysis : CircuitAnalysis) (circuit : Circuit) :
    CircuitAnalysis :=
  let vv := analysis.voltages.map
    (fun kv => (kv.1, if 0 ≤ kv.2 ∧ kv.2 ≤ 1000 then kv.2 else 0))
  let vc := analysis.currents.map
    (fun kv => (kv.1, if 0 ≤ kv.2 ∧ kv.2 ≤ 10000 then kv.2 else 0))
  let defaultPower := fun (m : QMap) (comp : Component) =>
    let p := jsNum (getk analysis.power comp.id)
    setk m comp.id (if 0 ≤ p ∧ p ≤ 10000000 then p else 0)
  let vp := circuit.components.foldl
    (fun m comp =>
      match comp.properties.powerConsumption with
      | some pc =>
          if applianceTypes.contains comp.ctype ∧ pc ≠ 0 then setk m comp.id pc
          else defaultPower m comp
      | none => defaultPower m comp)
    []
  -- `analysis.totalPower || 0` and `analysis.efficiency || 0` are identities
  -- on rationals (`0 || 0` is `0`)
  { voltages := vv, currents := vc, power := vp,
    totalPower := analysis.totalPower, efficiency := analysis.efficiency,
    issues := analysis.issues }

def necOvercurrentHazard (cid : String) (i : ℚ) : SafetyHazard :=
  { id := .necOvercurrent cid, htype := .overcurrent, severity := .critical,
    componentId := some cid, description := .necCurrent i,
    mitigation := "Add current limiting devices or reduce load" }

def componentOvercurrentHazard (cid : String) (i r : ℚ) : SafetyHazard :=
  { id := .componentOvercurrent cid, htype := .overcurrent, severity := .high,
    componentId := some cid, description := .compCurrent cid i r,
    mitigation := "Replace with higher rated component or add current limiting" }

/-- The per-component rating check nested inside the battery loop of
`analyzeOvercurrentHazards` (both the rating and the stored current must be
JS-truthy). -/
def overcurrentPerComp (analysis : CircuitAnalysis) (comp : Component) :
    List SafetyHazard :=
  match comp.properties.currentRating, getk analysis.currents comp.id with
  | some r, some i =>
      if r ≠ 0 ∧ i ≠ 0 ∧ i > r then [componentOvercurrentHazard comp.id i r] else []
  | some _, none => []
  | none, _ => []

def overcurrentPerSource (analysis : CircuitAnalysis) (c : Circuit)
    (src : Component) : List SafetyHazard :=
  (if jsNum (getk analysis.currents src.id) > 100 then
    [necOvercurrentHazard src.id (jsNum (getk analysis.currents src.id))]
   else [])
  ++ c.components.foldl (fun acc comp => acc ++ overcurrentPerComp analysis comp) []

/-- `analyzeOvercurrentHazards`: note the source iterates only `battery`
components, and the component-rating loop is nested inside that iteration. -/
def analyzeOvercurrentHazards (analysis : CircuitAnalysis) (c : Circuit) :
    List SafetyHazard :=
  (c.components.filter (fun comp => decide (comp.ctype = "battery"))).foldl
    (fun acc src => acc ++ overcurrentPerSource analysis c src) []

def accessibleTypes : List String :=
  ["socket", "switch", "two-way-switch", "light", "fan", "tv", "ac", "heater",
   "motor", "washing-machine", "dishwasher", "microwave", "refrigerator",
   "water-heater", "electric-stove", "electric-oven", "heat-pump",
   "electric-boiler"]

def necOvervoltageHazard (cid : String) (v : ℚ) : SafetyHazard :=
  { id := .necOvervoltage cid, htype := .overvoltage, severity := .critical,
    componentId := some cid, description := .necVoltage v,
    mitigation := "Use appropriate voltage rating or add voltage protection" }

def componentOvervoltageHazard (cid : String) (v r : ℚ) : SafetyHazard :=
  { id := .componentOvervoltage cid, htype := .overvoltage, severity := .high,
    componentId := some cid, description := .compVoltage cid v r,
    mitigation := "Replace with higher voltage rated component" }

def touchVoltageHazard (n : Nat) : SafetyHazard :=
  { id := .touchVoltageAccessible, htype := .overvoltage, severity := .high,
    componentId := none, description := .touchVoltage n,
    mitigation := "Install GFCI/RCCB protection and ensure proper insulation/grounding" }

def analyzeOvervoltageHazards (analysis : CircuitAnalysis) (c : Circuit) :
    List SafetyHazard :=
  let hasProt := c.components.any
    (fun comp => decide (comp.ctype = "gfci" ∨ comp.ctype = "rccb" ∨ comp.ctype = "afci"))
  let p := c.components.foldl
    (fun (p : List SafetyHazard × List String) comp =>
      let voltage := jsNum (getk analysis.voltages comp.id)
      let hz := p.1
      let hz := if voltage > 600 then hz ++ [necOvervoltageHazard comp.id voltage] else hz
      let hz :=
        match comp.properties.voltageRating with
        | some r =>
            if r ≠ 0 ∧ voltage > r then hz ++ [componentOvervoltageHazard comp.id voltage r]
            else hz
        | none => hz
      let acc :=
        if ¬ hasProt ∧ accessibleTypes.contains comp.ctype ∧ voltage > 50 then
          p.2 ++ [comp.id]
        else p.2
      (hz, acc))
    ([], [])
  if ¬ hasProt ∧ p.2 ≠ [] then p.1 ++ [touchVoltageHazard p.2.length] else p.1

def shortCircuitHazard (cid : String) (i v : ℚ) : SafetyHazard :=
  { id := .shortCircuit cid, htype := .short_circuit, severity := .critical,
    componentId := some cid, description := .shortDetected i v,
    mitigation := "Add fuses, circuit breakers, or current limiting devices" }

/-- The flagging condition of `analyzeShortCircuitHazards` for one source:
`voltage > 0 && voltage <= 600 && current > expectedMaxCurrent &&
current > voltage * 3`, with `voltage = analysis.voltages[id] || supplyV`
and `expectedMaxCurrent = supplyV <= 50 ? 50 : 150`. -/
def shortCircuitCond (analysis : CircuitAnalysis) (supplyV : ℚ) (src : Component) :
    Prop :=
  jsOr (getk analysis.voltages src.id) supplyV > 0 ∧
  jsOr (getk analysis.voltages src.id) supplyV ≤ 600 ∧
  jsNum (getk analysis.currents src.id) > (if supplyV ≤ 50 then 50 else 150) ∧
  jsNum (getk analysis.currents src.id) >
    jsOr (getk analysis.voltages src.id) supplyV * 3

instance (analysis : CircuitAnalysis) (supplyV : ℚ) (src : Component) :
    Decidable (shortCircuitCond analysis supplyV src) := by
  unfold shortCircuitCond; infer_instance

/-- The loop of `analyzeShortCircuitHazards`, threading the `reportedShorts`
set (modelled by the list of source ids already reported). -/
def shortGo (analysis : CircuitAnalysis) (supplyV : ℚ) :
    List Component → List SafetyHazard → List String → List SafetyHazard
  | [], acc, _ => acc
  | src :: rest, acc, reported =>
      if shortCircuitCond analysis supplyV src then
        if src.id ∈ reported then shortGo analysis supplyV rest acc reported
        else
          shortGo analysis supplyV rest
            (acc ++ [shortCircuitHazard src.id
              (jsNum (getk analysis.currents src.id))
              (jsOr (getk analysis.voltages src.id) supplyV)])
            (src.id :: reported)
      else shortGo analysis supplyV rest acc reported

def analyzeShortCircuitHazards (analysis : CircuitAnalysis) (c : Circuit) :
    List SafetyHazard :=
  shortGo analysis (metadataVoltageOf c) (powerSourcesOf c) [] []

def noGroundHazard : SafetyHazard :=
  { id := .noGround, htype := .ground_fault, severity := .medium,
    componentId := none, description := .noGroundDesc,
    mitigation := "Add proper grounding for safety" }

def groundFaultHazard (cid : String) (i : ℚ) : SafetyHazard :=
  { id := .groundFault cid, htype := .ground_fault, severity := .high,
    componentId := some cid, description := .groundFaultDesc i,
    mitigation := "Install GFCI protection or improve grounding" }

def groundFaultPerSource (analysis : CircuitAnalysis) (src : Component) :
    List SafetyHazard :=
  let voltage := jsNum (getk analysis.voltages src.id)
  let current := jsNum (getk analysis.currents src.id)
  if voltage > 0 ∧ current > 0 then
    let gfc := calculateGroundFaultCurrent voltage 1000
    if gfc > 0.03 then [groundFaultHazard src.id gfc] else []
  else []

def analyzeGroundFaultHazards (analysis : CircuitAnalysis) (c : Circuit) :
    List SafetyHazard :=
  let hasGround := c.components.any (fun comp => decide (comp.ctype = "ground"))
  let hasGFP := c.components.any
    (fun comp => decide (comp.ctype = "gfci" ∨ comp.ctype = "rccb"))
  let base := if hasGround then [] else [noGroundHazard]
  if hasGFP then base
  else
    (c.components.filter (fun comp => decide (comp.ctype = "battery"))).foldl
      (fun acc src => acc ++ groundFaultPerSource analysis src) base

def highPowerAppliances : List String :=
  ["ac", "heater", "motor", "washing-machine", "microwave", "dishwasher",
   "water-heater", "electric-stove", "electric-oven", "heat-pump",
   "electric-boiler", "ups", "inverter", "refrigerator"]

def thermalHazard (cid : String) (p r : ℚ) : SafetyHazard :=
  { id := .thermal cid, htype := .thermal, severity := .high,
    componentId := some cid, description := .thermalDesc cid p r,
    mitigation := "Replace with higher power rated component or add heat sinking" }

def thermalDensityHazard (cid : String) (p : ℚ) : SafetyHazard :=
  { id := .thermalDensity cid, htype := .thermal, severity := .medium,
    componentId := some cid, description := .thermalDensityDesc p,
    mitigation := "Ensure adequate ventilation and heat sinking" }

def thermalPerComp (analysis : CircuitAnalysis) (comp : Component) :
    List SafetyHazard :=
  let power :=
    match comp.properties.powerConsumption with
    | some pc =>
        if highPowerAppliances.contains comp.ctype ∧ pc ≠ 0 then pc
        else jsNum (getk analysis.power comp.id)
    | none => jsNum (getk analysis.power comp.id)
  if power ≤ 0 ∨ power > 10000000 then []
  else
    (match comp.properties.powerRating with
     | some r => if r ≠ 0 ∧ power > r then [thermalHazard comp.id power r] else []
     | none => []) ++
    (if falsyQ comp.properties.powerRating ∧
        ¬ highPowerAppliances.contains comp.ctype then
      let threshold : ℚ := if protectionTypes.contains comp.ctype then 100 else 500
      if power > threshold then [thermalDensityHazard comp.id power] else []
     else [])

def analyzeThermalHazards (analysis : CircuitAnalysis) (c : Circuit) :
    List SafetyHazard :=
  c.components.foldl (fun acc comp => acc ++ thermalPerComp analysis comp) []

def arcFlashHazard (cid : String) (e : ℚ) : SafetyHazard :=
  { id := .arcFlash cid, htype := .arc_flash, severity := .critical,
    componentId := some cid, description := .arcFlashDesc e,
    mitigation := "Use appropriate PPE, maintain safe working distance, or reduce fault current" }

/-- One source of `analyzeArcFlashHazards`.  Note: the source passes the
literal `18` (commented as the 18 inch working distance) as the
`clearingTime` argument of `calculateArcFlashEnergy`. -/
def arcFlashPerSource (analysis : CircuitAnalysis) (src : Component) :
    List SafetyHazard :=
  let voltage := jsNum (getk analysis.voltages src.id)
  let current := jsNum (getk analysis.currents src.id)
  if voltage < 0 ∨ voltage > 1000 then []
  else if current < 0 ∨ current > 10000 then []
  else if voltage > 50 then
    let faultCurrent := min (current * 10) 10000
    let e := calculateArcFlashEnergy voltage faultCurrent 18
    if e > 1.2 then [arcFlashHazard src.id e] else []
  else []

def analyzeArcFlashHazards (analysis : CircuitAnalysis) (c : Circuit) :
    List SafetyHazard :=
  (powerSourcesOf c).foldl (fun acc src => acc ++ arcFlashPerSource analysis src) []

/-- NEC compliance check. -/
def checkNECCompliance (analysis : CircuitAnalysis) (c : Circuit) :
    ComplianceCheck :=
  let voltageValues := (analysis.voltages.map Prod.snd).filter
    (fun v => decide (0 ≤ v ∧ v ≤ 1000))
  let currentValues := (analysis.currents.map Prod.snd).filter
    (fun i => decide (0 ≤ i ∧ i ≤ 10000))
  let maxVoltage := match voltageValues with
    | [] => 0
    | v :: rest => rest.foldl max v
  let maxCurrent := match currentValues with
    | [] => 0
    | i :: rest => rest.foldl max i
  let hasType := fun (t : String) => c.components.any (fun comp => comp.ctype == t)
  let missingCritical := (["mcb", "rccb", "ground"] : List String).filter
    (fun t => ! hasType t)
  let missingRecommended :=
    (["gfci", "afci", "spd", "surge-protector", "overvoltage-protector",
      "undervoltage-protector", "emergency-stop"] : List String).filter
    (fun t => ! hasType t)
  let stA : CStatus × List CDesc :=
    if voltageValues = [] ∨ currentValues = [] then (.warning, [.insufficientData])
    else if maxVoltage > 600 ∨ maxCurrent > 100 then
      (.non_compliant,
        (if maxVoltage > 600 then [CDesc.necMaxV maxVoltage] else []) ++
        (if maxCurrent > 100 then [CDesc.necMaxI maxCurrent] else []))
    else (.compliant, [.necWithin maxVoltage maxCurrent])
  let stB : CStatus × List CDesc :=
    if missingCritical ≠ [] then
      (.non_compliant, stA.2 ++ [.missingCritical missingCritical])
    else if missingRecommended ≠ [] then
      (if stA.1 ≠ .non_compliant then .warning else stA.1,
       stA.2 ++ [.considerAdding missingRecommended])
    else (stA.1, stA.2 ++ [.allCriticalPresent])
  { standard := "NEC", status := stB.1, description := stB.2,
    requirement := "Keep voltage <= 600V & current <= 100A. Required protection: MCB, RCCB, grounding. Recommended: GFCI, AFCI, SPD, surge, over/undervoltage, emergency stop." }

/-- OSHA compliance check. -/
def checkOSHACompliance (analysis : CircuitAnalysis) (_c : Circuit) :
    ComplianceCheck :=
  let voltageValues := (analysis.voltages.map Prod.snd).filter
    (fun v => decide (0 ≤ v ∧ v ≤ 1000))
  let maxVoltage := match voltageValues with
    | [] => 0
    | v :: rest => rest.foldl max v
  let st : CStatus × List CDesc :=
    if voltageValues = [] then (.warning, [.oshaUnavailable])
    else if maxVoltage > 50 then (.warning, [.oshaExceeds maxVoltage])
    else (.compliant, [.oshaWithin maxVoltage])
  { standard := "OSHA", status := st.1, description := st.2,
    requirement := "Keep accessible touch voltage <= 50V and provide proper isolation/guards." }

/-- NFPA compliance check (again passing `18` as the clearing time). -/
def checkNFPACompliance (analysis : CircuitAnalysis) (c : Circuit) :
    ComplianceCheck :=
  let batteries := c.components.filter (fun comp => decide (comp.ctype = "battery"))
  let maxE := batteries.foldl
    (fun acc src =>
      let voltage := jsNum (getk analysis.voltages src.id)
      let current := jsNum (getk analysis.currents src.id)
      if voltage > 50 then max acc (calculateArcFlashEnergy voltage current 18)
      else acc)
    0
  let st : CStatus × List CDesc :=
    if batteries = [] then (.warning, [.nfpaNoSources])
    else if maxE = 0 then (.warning, [.nfpaNoEnergy])
    else if maxE > 1.2 then (.non_compliant, [.nfpaExceeds maxE])
    else (.compliant, [.nfpaWithin maxE])
  { standard := "NFPA", status := st.1, description := st.2,
    requirement := "Limit incident energy to <= 1.2 cal/cm2 at 18 inch working distance and apply appropriate PPE." }

/-- The deduplication key of a hazard: type, componentId (or global), and
description string. -/
def hazardKey (h : SafetyHazard) : HazardType × String × HazardDesc :=
  (h.htype, h.componentId.getD "global", h.description)

/-- First-occurrence deduplication of hazards by `hazardKey` (the source
fills a `Map` and takes its values in insertion order). -/
def dedupHazardsGo (seen : List (HazardType × String × HazardDesc)) :
    List SafetyHazard → List SafetyHazard
  | [] => []
  | h :: rest =>
      if hazardKey h ∈ seen then dedupHazardsGo seen rest
      else h :: dedupHazardsGo (hazardKey h :: seen) rest

/-- First-occurrence deduplication of recommendation strings (the source
filters with a `Set`). -/
def dedupStringsGo (seen : List String) : List String → List String
  | [] => []
  | r :: rest =>
      if r ∈ seen then dedupStringsGo seen rest
      else r :: dedupStringsGo (r :: seen) rest

/-- `generateSafetyRecommendations`: every mitigation, then the general
messages, then the compliance message. -/
def generateSafetyRecommendations (hazards : List SafetyHazard)
    (compliance : List ComplianceCheck) : List String :=
  hazards.map (fun h => h.mitigation)
  ++ (if hazards.isEmpty then ["Circuit appears safe - continue monitoring"]
      else ["Review all safety hazards before operation",
            "Consider adding protective devices (fuses, circuit breakers)"])
  ++ (if (compliance.filter (fun ch => decide (ch.status = .non_compliant))).isEmpty
      then []
      else ["Address non-compliance issues before operation"])

def hazardPenalty (s : Severity) : ℤ :=
  match s with
  | .critical => 25
  | .high => 15
  | .medium => 8
  | .low => 3

def compliancePenalty (s : CStatus) : ℤ :=
  match s with
  | .non_compliant => 12
  | .warning => 3
  | .compliant => 0

/-- `hazards.length === 0 || !hazards.some(critical short-circuit)`. -/
def hasProtectionOf (hazards : List SafetyHazard) : Prop :=
  hazards = [] ∨
    ¬ ∃ h ∈ hazards, h.htype = HazardType.short_circuit ∧ h.severity = Severity.critical

instance (hazards : List SafetyHazard) : Decidable (hasProtectionOf hazards) := by
  unfold hasProtectionOf; infer_instance

/-- The running score of `calculateSafetyScore` before the final clamp:
100, plus the protection bonus, minus the per-hazard and per-compliance
deductions. -/
def preClampScore (hazards : List SafetyHazard) (compliance : List ComplianceCheck) :
    ℤ :=
  let score : ℤ := 100 + (if hasProtectionOf hazards then 20 else 0)
  let score := hazards.foldl (fun s h => s - hazardPenalty h.severity) score
  compliance.foldl (fun s ch => s - compliancePenalty ch.status) score

/-- `calculateSafetyScore`: the pre-clamp score clamped to at most 100 and at
least 10 (if protected) or 0. -/
def calculateSafetyScore (hazards : List SafetyHazard)
    (compliance : List ComplianceCheck) : ℤ :=
  min 100 (max (if hasProtectionOf hazards then 10 else 0)
    (preClampScore hazards compliance))

def determineRiskLevel (score : ℤ) (hazards : List SafetyHazard) : RiskLevel :=
  let crit := (hazards.filter (fun h => decide (h.severity = Severity.critical))).length
  let hi := (hazards.filter (fun h => decide (h.severity = Severity.high))).length
  if crit > 0 ∨ score < 30 then .critical
  else if hi > 0 ∨ score < 50 then .high
  else if score < 75 then .medium
  else .low

/-- `SafetyAssessmentAgent.assessSafety`. -/
def assessSafety (analysis : CircuitAnalysis) (circuit : Circuit) :
    SafetyAssessment :=
  let va := validateAnalysisValues analysis circuit
  let hazards :=
    analyzeOvercurrentHazards va circuit
    ++ analyzeOvervoltageHazards va circuit
    ++ analyzeShortCircuitHazards va circuit
    ++ analyzeGroundFaultHazards va circuit
    ++ analyzeThermalHazards va circuit
    ++ analyzeArcFlashHazards va circuit
  let uniqueHazards := dedupHazardsGo [] hazards
  let compliance := [checkNECCompliance va circuit, checkOSHACompliance va circuit,
    checkNFPACompliance va circuit]
  let uniqueRecommendations :=
    dedupStringsGo [] (generateSafetyRecommendations uniqueHazards compliance)
  let safetyScore := calculateSafetyScore uniqueHazards compliance
  { safetyScore := safetyScore, hazards := uniqueHazards, compliance := compliance,
    recommendations := uniqueRecommendations,
    riskLevel := determineRiskLevel safetyScore uniqueHazards }

/-- The Step 7 action on a single map: one `validStep` per processed key. -/
def vfold (hi neg : ℚ) (ks : List String) (m : QMap) : QMap :=
  ks.foldl (fun m k => (validStep m k hi neg).1) m

/-- The issues appended by one protection device of Step 4. -/
def step4NewIssues (tc : ℚ) (d : Component) : List CircuitIssue :=
  if d.ctype = "mcb" ∧ tc > jsOr d.properties.tripCurrent 16 then
    [mcbIssue d.id tc (jsOr d.properties.tripCurrent 16)]
  else if d.ctype = "fuse" ∧ tc > jsOr d.properties.fuseRating 16 then
    [fuseIssue d.id tc (jsOr d.properties.fuseRating 16)]
  else []

/-! ### Assembly: `preAnalysis` and `analyzeCircuit` -/

/-- The `applianceCurrents` object built in Step 2. -/
def applianceCurrentsOf (c : Circuit) : QMap :=
  (step2Appliances (appliancesOf c) (isThreePhaseOf c) (sourceVoltageOf c)
    (step1Sources (powerSourcesOf c) (sourceVoltageOf c)
      (initState c.components))).2

/-- The `processedComponentIds` set built before Step 6. -/
def processedOf (c : Circuit) : List String :=
  (powerSourcesOf c).map (·.id) ++ (appliancesOf c).map (·.id)
    ++ (protectionDevicesOf c).map (·.id) ++ (junctionsOf c).map (·.id)

/-- The state after Step 7 (what `analyzeCircuit` returns, before the final
circuit-level issues are appended). -/
def finalState (c : Circuit) : AState :=
  step7Validate (keysOf (preAnalysis c).st.volts) (preAnalysis c).st

/-- The arc-flash energy prescribed by the specification: clearing time
`t = 0.1` s (the documented default of `calculateArcFlashEnergy`) at the
18 in = 45.72 cm working distance. -/
def specArcFlashEnergy (voltage faultCurrent : ℚ) : ℚ :=
  calculateArcFlashEnergy voltage faultCurrent 0.1

def arcAnalysisC6 : CircuitAnalysis := ⟨[("s1", 230)], [("s1", 1)], [], 0, 0, []⟩

def arcCircuitC6 : Circuit := ⟨[⟨"s1", "socket", 230, {}⟩], [], none⟩

/-! ### Counterexample inputs and witnesses -/

def negVoltageCircuit : Circuit :=
  ⟨[⟨"b1", "battery", 230, {}⟩,
    ⟨"fan1", "fan", 0, { operatingVoltage := some (-50) }⟩], [], none⟩

def zeroValueSourceCircuit : Circuit :=
  ⟨[⟨"a", "battery", 12, {}⟩, ⟨"b", "battery", 0, {}⟩], [],
    some ⟨some 100, none⟩⟩

def critShortHazardX : SafetyHazard := shortCircuitHazard "x" 800 230

def socketOnlyCircuit : Circuit := ⟨[⟨"s1", "socket", 230, {}⟩], [], none⟩

def socketOnlyAnalysis : CircuitAnalysis :=
  ⟨[("s1", 230)], [("s1", 200)], [("s1", 46000)], 0, 0, []⟩

def hv650Circuit : Circuit := ⟨[⟨"b1", "battery", 650, {}⟩], [], none⟩

def hv650Analysis : CircuitAnalysis :=
  ⟨[("b1", 650)], [("b1", 2000)], [], 0, 0, []⟩

def wBat : Component := ⟨"b1", "battery", 230, {}⟩

def wC1 : Circuit := ⟨[wBat], [], none⟩

def wC2 : Circuit := ⟨[⟨"r1", "resistor", 100, {}⟩], [], none⟩

def wAn7 : CircuitAnalysis := ⟨[("b1", 230)], [("b1", 200)], [], 0, 0, []⟩

def wAn8 : CircuitAnalysis := ⟨[("b1", 230)], [("b1", 800)], [], 0, 0, []⟩

def wMcb : Component := ⟨"m1", "mcb", 0, {}⟩

def wFan : Component := ⟨"f1", "fan", 0, { powerConsumption := some 4600 }⟩

def wC9 : Circuit := ⟨[wBat, wMcb, wFan], [], none⟩

def emptyAnalysisW : CircuitAnalysis := ⟨[], [], [], 0, 0, []⟩

def emptyCircuitW : Circuit := ⟨[], [], none⟩

/-! ### Map lemmas -/

theorem keysOf_cons (a : String) (b : ℚ) (m : QMap) :
    keysOf ((a, b) :: m) = a :: keysOf m := rfl

theorem keysOf_nil : keysOf [] = [] := rfl

theorem getk_setk_self (m : QMap) (k : String) (v : ℚ) :
    getk (setk m k v) k = some v := by
  induction m with
  | nil => simp [setk, getk]
  | cons kv rest ih =>
      obtain ⟨k1, v1⟩ := kv
      by_cases h : k1 = k
      · simp [setk, getk, h]
      · simp [setk, getk, h, ih]

theorem getk_setk_ne (m : QMap) (k k0 : String) (v : ℚ) (h : k ≠ k0) :
    getk (setk m k0 v) k = getk m k := by
  induction m with
  | nil => simp [setk, getk, Ne.symm h]
  | cons kv rest ih =>
      obtain ⟨k1, v1⟩ := kv
      by_cases h1 : k1 = k0
      · subst h1
        simp [setk, getk, Ne.symm h]
      · by_cases h2 : k1 = k
        · simp [setk, getk, h1, h2, h]
        · simp [setk, getk, h1, h2, ih]

theorem mem_keysOf_setk_iff (m : QMap) (k k0 : String) (v : ℚ) :
    k ∈ keysOf (setk m k0 v) ↔ k ∈ keysOf m ∨ k = k0 := by
  induction m with
  | nil => simp [setk, keysOf, eq_comm]
  | cons kv rest ih =>
      obtain ⟨k1, v1⟩ := kv
      by_cases h1 : k1 = k0
      · subst h1
        have hset : setk ((k1, v1) :: rest) k1 v = (k1, v) :: rest := by
          simp [setk]
        rw [hset, keysOf_cons, keysOf_cons]
        simp only [List.mem_cons]
        tauto
      · have hset : setk ((k1, v1) :: rest) k0 v = (k1, v1) :: setk rest k0 v := by
          simp [setk, h1]
        rw [hset, keysOf_cons, keysOf_cons]
        simp only [List.mem_cons, ih]
        tauto

theorem mem_keysOf_of_getk (m : QMap) (k : String) (x : ℚ)
    (h : getk m k = some x) : k ∈ keysOf m := by
  induction m with
  | nil => simp [getk] at h
  | cons kv rest ih =>
      obtain ⟨k1, v1⟩ := kv
      by_cases h1 : k1 = k
      · simp [keysOf_cons, h1]
      · rw [getk, if_neg h1] at h
        simp [keysOf_cons, ih h]

theorem getk_of_mem_keysOf (m : QMap) (k : String) (h : k ∈ keysOf m) :
    ∃ x, getk m k = some x := by
  induction m with
  | nil => simp [keysOf] at h
  | cons kv rest ih =>
      obtain ⟨k1, v1⟩ := kv
      by_cases h1 : k1 = k
      · exact ⟨v1, by rw [getk, if_pos h1]⟩
      · rw [keysOf_cons, List.mem_cons] at h
        rcases h with h | h
        · exact absurd h.symm h1
        · obtain ⟨x, hx⟩ := ih h
          exact ⟨x, by rw [getk, if_neg h1]; exact hx⟩

theorem keysOf_setk_mem (m : QMap) (k : String) (v : ℚ) (h : k ∈ keysOf m) :
    keysOf (setk m k v) = keysOf m := by
  induction m with
  | nil => simp [keysOf] at h
  | cons kv rest ih =>
      obtain ⟨k1, v1⟩ := kv
      by_cases h1 : k1 = k
      · simp [setk, h1, keysOf_cons]
      · rw [keysOf_cons, List.mem_cons] at h
        rcases h with h | h
        · exact absurd h.symm h1
        · simp [setk, h1, keysOf_cons, ih h]

/-! ### Generic lemmas about `forEach`-push folds -/

theorem mem_foldl_append {α β : Type} (f : α → List β) (l : List α)
    (init : List β) (x : β) :
    x ∈ l.foldl (fun acc a => acc ++ f a) init ↔ x ∈ init ∨ ∃ a ∈ l, x ∈ f a := by
  induction l generalizing init with
  | nil => simp
  | cons a t ih =>
      rw [List.foldl_cons, ih]
      simp only [List.mem_append, List.mem_cons]
      constructor
      · rintro (⟨h | h⟩ | ⟨b, hb, hx⟩)
        · exact Or.inl h
        · exact Or.inr ⟨a, Or.inl rfl, h⟩
        · exact Or.inr ⟨b, Or.inr hb, hx⟩
      · rintro (h | ⟨b, rfl | hb, hx⟩)
        · exact Or.inl (Or.inl h)
        · exact Or.inl (Or.inr hx)
        · exact Or.inr ⟨b, hb, hx⟩

theorem foldl_sub_eq_sum {α : Type} (f : α → ℤ) (l : List α) (s : ℤ) :
    l.foldl (fun a x => a - f x) s = s - (l.map f).sum := by
  induction l generalizing s with
  | nil => simp
  | cons a t ih =>
      rw [List.foldl_cons, ih, List.map_cons, List.sum_cons]
      ring

/-! ### Lemmas about the Step 7 validation -/

theorem validStep_fst_getk (m : QMap) (k0 k : String) (hi neg : ℚ) :
    getk (validStep m k0 hi neg).1 k =
      if k = k0 then
        (getk m k0).map (fun x => if x > hi ∨ x < neg then max 0 (min hi x) else x)
      else getk m k := by
  unfold validStep
  by_cases hk : k = k0
  · subst hk
    cases hm : getk m k with
    | none => simp [hm]
    | some x =>
        by_cases hc : x > hi ∨ x < neg
        · simp [hm, hc, getk_setk_self]
        · simp [hm, hc]
  · cases hm : getk m k0 with
    | none => simp [hm, hk]
    | some x =>
        by_cases hc : x > hi ∨ x < neg
        · simp [hm, hc, hk, getk_setk_ne m k k0 _ hk]
        · simp [hm, hc, hk]

theorem validStep_fst_keys (m : QMap) (k0 : String) (hi neg : ℚ) :
    keysOf (validStep m k0 hi neg).1 = keysOf m := by
  unfold validStep
  cases hm : getk m k0 with
  | none => rfl
  | some x =>
      by_cases hc : x > hi ∨ x < neg
      · simp [hc, keysOf_setk_mem m k0 _ (mem_keysOf_of_getk m k0 x hm)]
      · simp [hc]

theorem validStep_snd_of_out (m : QMap) (k0 : String) (hi neg x : ℚ)
    (hm : getk m k0 = some x) (hc : x > hi ∨ x < neg) :
    (validStep m k0 hi neg).2 = some x := by
  unfold validStep
  simp [hm, hc]

theorem vfold_keys (hi neg : ℚ) (ks : List String) (m : QMap) :
    keysOf (vfold hi neg ks m) = keysOf m := by
  induction ks generalizing m with
  | nil => rfl
  | cons k0 t ih =>
      rw [vfold, List.foldl_cons, ← vfold, ih, validStep_fst_keys]

theorem vfold_getk_kept (hi neg : ℚ) (ks : List String) (m : QMap)
    (k : String) (x : ℚ) (h : getk m k = some x) (hin : ¬(x > hi ∨ x < neg)) :
    getk (vfold hi neg ks m) k = some x := by
  induction ks generalizing m with
  | nil => exact h
  | cons k0 t ih =>
      rw [vfold, List.foldl_cons, ← vfold]
      apply ih
      rw [validStep_fst_getk]
      by_cases hk : k = k0
      · subst hk
        simp [h, hin]
      · simp [hk, h]

theorem vfold_bounded (hi neg : ℚ) (hneg : neg ≤ 0) (hhi : 0 ≤ hi) :
    ∀ (ks : List String) (m : QMap),
      (∀ k ∈ keysOf m, k ∈ ks ∨ ∀ x, getk m k = some x → neg ≤ x ∧ x ≤ hi) →
      ∀ k x, getk (vfold hi neg ks m) k = some x → neg ≤ x ∧ x ≤ hi := by
  intro ks
  induction ks with
  | nil =>
      intro m hm k x hget
      rcases hm k (mem_keysOf_of_getk _ _ _ hget) with h | h
      · simp at h
      · exact h x hget
  | cons k0 t ih =>
      intro m hm k x hget
      rw [vfold, List.foldl_cons, ← vfold] at hget
      refine ih _ ?_ k x hget
      intro k1 hk1
      rw [validStep_fst_keys] at hk1
      by_cases hkk : k1 = k0
      · subst hkk
        right
        intro y hy
        rw [validStep_fst_getk, if_pos rfl] at hy
        cases hm0 : getk m k1 with
        | none => rw [hm0] at hy; simp at hy
        | some z =>
            rw [hm0] at hy
            have hyz : (if z > hi ∨ z < neg then max 0 (min hi z) else z) = y := by
              simpa using hy
            by_cases hc : z > hi ∨ z < neg
            · rw [if_pos hc] at hyz
              subst hyz
              constructor
              · exact le_trans hneg (le_max_left 0 _)
              · exact max_le hhi (min_le_left hi z)
            · rw [if_neg hc] at hyz
              subst hyz
              push_neg at hc
              exact ⟨hc.2, hc.1⟩
      · rcases hm k1 hk1 with h | h
        · rcases List.mem_cons.mp h with h | h
          · exact absurd h hkk
          · exact Or.inl h
        · right
          intro y hy
          rw [validStep_fst_getk, if_neg hkk] at hy
          exact h y hy

theorem validateKey_volts (st : AState) (k : String) :
    (validateKey st k).volts = (validStep st.volts k 1000 (-100)).1 := rfl

theorem validateKey_currs (st : AState) (k : String) :
    (validateKey st k).currs = (validStep st.currs k 10000 (-100)).1 := rfl

theorem validateKey_pows (st : AState) (k : String) :
    (validateKey st k).pows = (validStep st.pows k 10000000 (-1000)).1 := rfl

theorem validateKey_issues (st : AState) (k : String) :
    (validateKey st k).issues = st.issues
      ++ (match (validStep st.volts k 1000 (-100)).2 with
          | some v => [invalidVoltageIssue k v]
          | none => [])
      ++ (match (validStep st.currs k 10000 (-100)).2 with
          | some i => [invalidCurrentIssue k i]
          | none => [])
      ++ (match (validStep st.pows k 10000000 (-1000)).2 with
          | some p => [invalidPowerIssue k p]
          | none => []) := rfl

theorem step7_volts (ks : List String) (st : AState) :
    (step7Validate ks st).volts = vfold 1000 (-100) ks st.volts := by
  induction ks generalizing st with
  | nil => rfl
  | cons k0 t ih =>
      rw [step7Validate, List.foldl_cons, ← step7Validate,
        vfold, List.foldl_cons, ← vfold, ih, validateKey_volts]

theorem step7_currs (ks : List String) (st : AState) :
    (step7Validate ks st).currs = vfold 10000 (-100) ks st.currs := by
  induction ks generalizing st with
  | nil => rfl
  | cons k0 t ih =>
      rw [step7Validate, List.foldl_cons, ← step7Validate,
        vfold, List.foldl_cons, ← vfold, ih, validateKey_currs]

theorem step7_pows (ks : List String) (st : AState) :
    (step7Validate ks st).pows = vfold 10000000 (-1000) ks st.pows := by
  induction ks generalizing st with
  | nil => rfl
  | cons k0 t ih =>
      rw [step7Validate, List.foldl_cons, ← step7Validate,
        vfold, List.foldl_cons, ← vfold, ih, validateKey_pows]

theorem validateKey_issues_mono (st : AState) (k : String) (iss : CircuitIssue)
    (h : iss ∈ st.issues) : iss ∈ (validateKey st k).issues := by
  rw [validateKey_issues]
  exact List.mem_append_left _ (List.mem_append_left _ (List.mem_append_left _ h))

theorem step7_issues_mono (ks : List String) (st : AState) (iss : CircuitIssue)
    (h : iss ∈ st.issues) : iss ∈ (step7Validate ks st).issues := by
  induction ks generalizing st with
  | nil => exact h
  | cons k0 t ih =>
      rw [step7Validate, List.foldl_cons, ← step7Validate]
      exact ih _ (validateKey_issues_mono _ _ _ h)

theorem step7_issues_weak (ks : List String) (st : AState) (iss : CircuitIssue)
    (h : iss ∈ (step7Validate ks st).issues) :
    iss ∈ st.issues ∨ ∃ k v, iss = invalidVoltageIssue k v ∨
      iss = invalidCurrentIssue k v ∨ iss = invalidPowerIssue k v := by
  induction ks generalizing st with
  | nil => exact Or.inl h
  | cons k0 t ih =>
      rw [step7Validate, List.foldl_cons, ← step7Validate] at h
      rcases ih _ h with h1 | h1
      · rw [validateKey_issues] at h1
        rcases List.mem_append.mp h1 with h2 | h2
        · rcases List.mem_append.mp h2 with h3 | h3
          · rcases List.mem_append.mp h3 with h4 | h4
            · exact Or.inl h4
            · revert h4
              cases (validStep st.volts k0 1000 (-100)).2 with
              | none => intro h4; simp at h4
              | some v =>
                  intro h4
                  rw [List.mem_singleton] at h4
                  exact Or.inr ⟨k0, v, Or.inl h4⟩
          · revert h3
            cases (validStep st.currs k0 10000 (-100)).2 with
            | none => intro h3; simp at h3
            | some i =>
                intro h3
                rw [List.mem_singleton] at h3
                exact Or.inr ⟨k0, i, Or.inr (Or.inl h3)⟩
        · revert h2
          cases (validStep st.pows k0 10000000 (-1000)).2 with
          | none => intro h2; simp at h2
          | some p =>
              intro h2
              rw [List.mem_singleton] at h2
              exact Or.inr ⟨k0, p, Or.inr (Or.inr h2)⟩
      · exact Or.inr h1

theorem step7_issue_of_out_volts (ks : List String) (st : AState) (k : String)
    (x : ℚ) (hks : k ∈ ks) (hget : getk st.volts k = some x)
    (hout : x > 1000 ∨ x < -100) :
    invalidVoltageIssue k x ∈ (step7Validate ks st).issues := by
  induction ks generalizing st with
  | nil => simp at hks
  | cons k0 t ih =>
      rw [step7Validate, List.foldl_cons, ← step7Validate]
      by_cases hk : k = k0
      · subst hk
        apply step7_issues_mono
        rw [validateKey_issues]
        apply List.mem_append_left
        apply List.mem_append_left
        apply List.mem_append_right
        rw [validStep_snd_of_out st.volts k 1000 (-100) x hget hout]
        exact List.mem_singleton.mpr rfl
      · have hkt : k ∈ t := by
          rcases List.mem_cons.mp hks with h | h
          · exact absurd h hk
          · exact h
        apply ih _ hkt
        rw [validateKey_volts, validStep_fst_getk, if_neg hk]
        exact hget

theorem step7_issue_of_out_currs (ks : List String) (st : AState) (k : String)
    (x : ℚ) (hks : k ∈ ks) (hget : getk st.currs k = some x)
    (hout : x > 10000 ∨ x < -100) :
    invalidCurrentIssue k x ∈ (step7Validate ks st).issues := by
  induction ks generalizing st with
  | nil => simp at hks
  | cons k0 t ih =>
      rw [step7Validate, List.foldl_cons, ← step7Validate]
      by_cases hk : k = k0
      · subst hk
        apply step7_issues_mono
        rw [validateKey_issues]
        apply List.mem_append_left
        apply List.mem_append_right
        rw [validStep_snd_of_out st.currs k 10000 (-100) x hget hout]
        exact List.mem_singleton.mpr rfl
      · have hkt : k ∈ t := by
          rcases List.mem_cons.mp hks with h | h
          · exact absurd h hk
          · exact h
        apply ih _ hkt
        rw [validateKey_currs, validStep_fst_getk, if_neg hk]
        exact hget

theorem step7_issue_of_out_pows (ks : List String) (st : AState) (k : String)
    (x : ℚ) (hks : k ∈ ks) (hget : getk st.pows k = some x)
    (hout : x > 10000000 ∨ x < -1000) :
    invalidPowerIssue k x ∈ (step7Validate ks st).issues := by
  induction ks generalizing st with
  | nil => simp at hks
  | cons k0 t ih =>
      rw [step7Validate, List.foldl_cons, ← step7Validate]
      by_cases hk : k = k0
      · subst hk
        apply step7_issues_mono
        rw [validateKey_issues]
        apply List.mem_append_right
        rw [validStep_snd_of_out st.pows k 10000000 (-1000) x hget hout]
        exact List.mem_singleton.mpr rfl
      · have hkt : k ∈ t := by
          rcases List.mem_cons.mp hks with h | h
          · exact absurd h hk
          · exact h
        apply ih _ hkt
        rw [validateKey_pows, validStep_fst_getk, if_neg hk]
        exact hget

/-! ### Lemmas about the initialization and Steps 1-6 -/

theorem initFold_keys_volts (comps : List Component) :
    ∀ (st : AState) (k : String),
      k ∈ keysOf (comps.foldl initBody st).volts ↔
        k ∈ keysOf st.volts ∨ k ∈ comps.map (·.id) := by
  induction comps with
  | nil => intro st k; simp
  | cons cp t ih =>
      intro st k
      rw [List.foldl_cons, ih]
      simp only [initBody, mem_keysOf_setk_iff, List.map_cons, List.mem_cons]
      tauto

theorem initFold_currs_volts (comps : List Component) :
    ∀ st : AState, st.currs = st.volts → st.pows = st.volts →
      (comps.foldl initBody st).currs = (comps.foldl initBody st).volts ∧
      (comps.foldl initBody st).pows = (comps.foldl initBody st).volts := by
  induction comps with
  | nil => intro st h1 h2; exact ⟨h1, h2⟩
  | cons cp t ih =>
      intro st h1 h2
      rw [List.foldl_cons]
      exact ih _ (by simp [initBody, h1]) (by simp [initBody, h2])

theorem initFold_issues (comps : List Component) :
    ∀ st : AState, (comps.foldl initBody st).issues = st.issues := by
  induction comps with
  | nil => intro st; rfl
  | cons cp t ih =>
      intro st
      rw [List.foldl_cons, ih]
      rfl

theorem initState_keys (comps : List Component) (k : String) :
    k ∈ keysOf (initState comps).volts ↔ k ∈ comps.map (·.id) := by
  rw [initState, initFold_keys_volts]
  simp [keysOf]

theorem initState_maps_eq (comps : List Component) :
    (initState comps).currs = (initState comps).volts ∧
    (initState comps).pows = (initState comps).volts :=
  initFold_currs_volts comps {} rfl rfl

theorem initState_issues (comps : List Component) : (initState comps).issues = [] :=
  initFold_issues comps {}

theorem step1_volts_keys (srcs : List Component) (sv : ℚ) :
    ∀ st : AState, (∀ s ∈ srcs, s.id ∈ keysOf st.volts) →
      keysOf (step1Sources srcs sv st).volts = keysOf st.volts := by
  induction srcs with
  | nil => intro st _; rfl
  | cons s t ih =>
      intro st h
      rw [step1Sources, List.foldl_cons, ← step1Sources]
      rw [ih _ ?_]
      · exact keysOf_setk_mem _ _ _ (h s (List.mem_cons_self s t))
      · intro s1 hs1
        simp only [step1Body, mem_keysOf_setk_iff]
        exact Or.inl (h s1 (List.mem_cons_of_mem s hs1))

theorem step1_currs (srcs : List Component) (sv : ℚ) :
    ∀ st : AState, (step1Sources srcs sv st).currs = st.currs := by
  induction srcs with
  | nil => intro st; rfl
  | cons s t ih =>
      intro st
      rw [step1Sources, List.foldl_cons, ← step1Sources, ih]
      rfl

theorem step1_pows (srcs : List Component) (sv : ℚ) :
    ∀ st : AState, (step1Sources srcs sv st).pows = st.pows := by
  induction srcs with
  | nil => intro st; rfl
  | cons s t ih =>
      intro st
      rw [step1Sources, List.foldl_cons, ← step1Sources, ih]
      rfl

theorem step1_issues (srcs : List Component) (sv : ℚ) :
    ∀ st : AState, (step1Sources srcs sv st).issues = st.issues := by
  induction srcs with
  | nil => intro st; rfl
  | cons s t ih =>
      intro st
      rw [step1Sources, List.foldl_cons, ← step1Sources, ih]
      rfl

theorem step1_getk_not_mem (srcs : List Component) (sv : ℚ) (k : String)
    (h : k ∉ srcs.map (·.id)) :
    ∀ st : AState, getk (step1Sources srcs sv st).volts k = getk st.volts k := by
  induction srcs with
  | nil => intro st; rfl
  | cons s t ih =>
      intro st
      rw [List.map_cons, List.mem_cons] at h
      push_neg at h
      rw [step1Sources, List.foldl_cons, ← step1Sources, ih h.2]
      exact getk_setk_ne _ _ _ _ h.1

theorem step1_getk_mem (srcs : List Component) (sv : ℚ) (s : Component)
    (hnd : (srcs.map (·.id)).Nodup) (hs : s ∈ srcs) :
    ∀ st : AState,
      getk (step1Sources srcs sv st).volts s.id = some (resolvedVoltage sv s) := by
  induction srcs with
  | nil => exact absurd hs (List.not_mem_nil s)
  | cons s1 t ih =>
      intro st
      rw [List.map_cons, List.nodup_cons] at hnd
      rcases List.mem_cons.mp hs with h | h
      · subst h
        rw [step1Sources, List.foldl_cons, ← step1Sources,
          step1_getk_not_mem t sv s.id hnd.1]
        simp [step1Body, getk_setk_self]
      · rw [step1Sources, List.foldl_cons, ← step1Sources]
        exact ih hnd.2 h _

/-! ### Generic lemmas about folds over `AState` -/

theorem foldl_keys_eq {α : Type} (body : AState → α → AState) (ids : α → String)
    (hbody : ∀ st a,
      ids a ∈ keysOf st.volts → ids a ∈ keysOf st.currs → ids a ∈ keysOf st.pows →
      keysOf (body st a).volts = keysOf st.volts ∧
      keysOf (body st a).currs = keysOf st.currs ∧
      keysOf (body st a).pows = keysOf st.pows) :
    ∀ (l : List α) (st : AState),
      (∀ a ∈ l, ids a ∈ keysOf st.volts ∧ ids a ∈ keysOf st.currs ∧
        ids a ∈ keysOf st.pows) →
      keysOf (l.foldl body st).volts = keysOf st.volts ∧
      keysOf (l.foldl body st).currs = keysOf st.currs ∧
      keysOf (l.foldl body st).pows = keysOf st.pows := by
  intro l
  induction l with
  | nil => intro st _; exact ⟨rfl, rfl, rfl⟩
  | cons a t ih =>
      intro st h
      obtain ⟨h1, h2, h3⟩ := h a (List.mem_cons_self a t)
      obtain ⟨e1, e2, e3⟩ := hbody st a h1 h2 h3
      rw [List.foldl_cons]
      have hnext : ∀ a1 ∈ t, ids a1 ∈ keysOf (body st a).volts ∧
          ids a1 ∈ keysOf (body st a).currs ∧ ids a1 ∈ keysOf (body st a).pows := by
        intro a1 ha1
        obtain ⟨g1, g2, g3⟩ := h a1 (List.mem_cons_of_mem a ha1)
        exact ⟨e1 ▸ g1, e2 ▸ g2, e3 ▸ g3⟩
      obtain ⟨f1, f2, f3⟩ := ih (body st a) hnext
      exact ⟨f1.trans e1, f2.trans e2, f3.trans e3⟩

theorem foldl_getk_volts {α : Type} (body : AState → α → AState) (l : List α)
    (k : String)
    (hbody : ∀ st a, a ∈ l → getk (body st a).volts k = getk st.volts k) :
    ∀ st : AState, getk (l.foldl body st).volts k = getk st.volts k := by
  induction l with
  | nil => intro st; rfl
  | cons a t ih =>
      intro st
      rw [List.foldl_cons]
      rw [ih (fun st1 a1 ha1 => hbody st1 a1 (List.mem_cons_of_mem a ha1))]
      exact hbody st a (List.mem_cons_self a t)

theorem foldl_issues_eq {α : Type} (body : AState → α → AState) (l : List α)
    (hbody : ∀ st a, (body st a).issues = st.issues) :
    ∀ st : AState, (l.foldl body st).issues = st.issues := by
  induction l with
  | nil => intro st; rfl
  | cons a t ih =>
      intro st
      rw [List.foldl_cons, ih, hbody]

theorem foldl_issues_iff {α : Type} (body : AState → α → AState) (l : List α)
    (news : α → List CircuitIssue)
    (hbody : ∀ st a, a ∈ l → (body st a).issues = st.issues ++ news a) :
    ∀ (st : AState) (iss : CircuitIssue),
      iss ∈ (l.foldl body st).issues ↔ iss ∈ st.issues ∨ ∃ a ∈ l, iss ∈ news a := by
  induction l with
  | nil => intro st iss; simp
  | cons a t ih =>
      intro st iss
      rw [List.foldl_cons,
        ih (fun st1 a1 ha1 => hbody st1 a1 (List.mem_cons_of_mem a ha1)),
        hbody st a (List.mem_cons_self a t), List.exists_mem_cons_iff,
        List.mem_append]
      tauto

theorem foldl_issues_weak {α : Type} (body : AState → α → AState) (l : List α)
    (P : CircuitIssue → Prop)
    (hbody : ∀ st a, a ∈ l → ∃ news, (body st a).issues = st.issues ++ news ∧
      ∀ iss ∈ news, P iss) :
    ∀ (st : AState) (iss : CircuitIssue),
      iss ∈ (l.foldl body st).issues → iss ∈ st.issues ∨ P iss := by
  induction l with
  | nil => intro st iss h; exact Or.inl h
  | cons a t ih =>
      intro st iss h
      rw [List.foldl_cons] at h
      rcases ih (fun st1 a1 ha1 => hbody st1 a1 (List.mem_cons_of_mem a ha1))
          (body st a) iss h with h1 | h1
      · obtain ⟨news, hn, hP⟩ := hbody st a (List.mem_cons_self a t)
        rw [hn] at h1
        rcases List.mem_append.mp h1 with h2 | h2
        · exact Or.inl h2
        · exact Or.inr (hP iss h2)
      · exact Or.inr h1

/-! ### Step 2 lemmas -/

theorem step2Body_fst_volts (tp : Bool) (sv : ℚ) (p : AState × QMap)
    (app : Component) :
    (step2Body tp sv p app).1.volts =
      setk p.1.volts app.id (jsOr app.properties.operatingVoltage sv) := rfl

theorem step2Body_fst_currs (tp : Bool) (sv : ℚ) (p : AState × QMap)
    (app : Component) :
    (step2Body tp sv p app).1.currs =
      setk p.1.currs app.id (applianceCurrent tp sv app) := rfl

theorem step2Body_fst_pows (tp : Bool) (sv : ℚ) (p : AState × QMap)
    (app : Component) :
    (step2Body tp sv p app).1.pows =
      setk p.1.pows app.id (jsOr app.properties.powerConsumption 0) := rfl

theorem step2Body_fst_issues (tp : Bool) (sv : ℚ) (p : AState × QMap)
    (app : Component) : (step2Body tp sv p app).1.issues = p.1.issues := rfl

theorem step2_keys (tp : Bool) (sv : ℚ) :
    ∀ (apps : List Component) (p : AState × QMap),
      (∀ a ∈ apps, a.id ∈ keysOf p.1.volts ∧ a.id ∈ keysOf p.1.currs ∧
        a.id ∈ keysOf p.1.pows) →
      keysOf (apps.foldl (step2Body tp sv) p).1.volts = keysOf p.1.volts ∧
      keysOf (apps.foldl (step2Body tp sv) p).1.currs = keysOf p.1.currs ∧
      keysOf (apps.foldl (step2Body tp sv) p).1.pows = keysOf p.1.pows := by
  intro apps
  induction apps with
  | nil => intro p _; exact ⟨rfl, rfl, rfl⟩
  | cons a t ih =>
      intro p h
      obtain ⟨h1, h2, h3⟩ := h a (List.mem_cons_self a t)
      have e1 : keysOf (step2Body tp sv p a).1.volts = keysOf p.1.volts := by
        rw [step2Body_fst_volts]; exact keysOf_setk_mem _ _ _ h1
      have e2 : keysOf (step2Body tp sv p a).1.currs = keysOf p.1.currs := by
        rw [step2Body_fst_currs]; exact keysOf_setk_mem _ _ _ h2
      have e3 : keysOf (step2Body tp sv p a).1.pows = keysOf p.1.pows := by
        rw [step2Body_fst_pows]; exact keysOf_setk_mem _ _ _ h3
      rw [List.foldl_cons]
      have hnext : ∀ a1 ∈ t, a1.id ∈ keysOf (step2Body tp sv p a).1.volts ∧
          a1.id ∈ keysOf (step2Body tp sv p a).1.currs ∧
          a1.id ∈ keysOf (step2Body tp sv p a).1.pows := by
        intro a1 ha1
        obtain ⟨g1, g2, g3⟩ := h a1 (List.mem_cons_of_mem a ha1)
        exact ⟨e1 ▸ g1, e2 ▸ g2, e3 ▸ g3⟩
      obtain ⟨f1, f2, f3⟩ := ih (step2Body tp sv p a) hnext
      exact ⟨f1.trans e1, f2.trans e2, f3.trans e3⟩

theorem step2_issues (tp : Bool) (sv : ℚ) :
    ∀ (apps : List Component) (p : AState × QMap),
      (apps.foldl (step2Body tp sv) p).1.issues = p.1.issues := by
  intro apps
  induction apps with
  | nil => intro p; rfl
  | cons a t ih =>
      intro p
      rw [List.foldl_cons, ih, step2Body_fst_issues]

theorem step2_getk_volts (tp : Bool) (sv : ℚ) (k : String) :
    ∀ (apps : List Component) (p : AState × QMap), k ∉ apps.map (·.id) →
      getk (apps.foldl (step2Body tp sv) p).1.volts k = getk p.1.volts k := by
  intro apps
  induction apps with
  | nil => intro p _; rfl
  | cons a t ih =>
      intro p h
      rw [List.map_cons, List.mem_cons] at h
      push_neg at h
      rw [List.foldl_cons, ih _ h.2, step2Body_fst_volts]
      exact getk_setk_ne _ _ _ _ h.1

/-! ### Step 4 lemmas -/

theorem setk_setk_same (m : QMap) (k : String) (a b : ℚ) :
    setk (setk m k a) k b = setk m k b := by
  induction m with
  | nil => simp [setk]
  | cons kv rest ih =>
      obtain ⟨k1, v1⟩ := kv
      by_cases h : k1 = k
      · simp [setk, h]
      · simp [setk, h, ih]

theorem step4Body_volts (sv tc : ℚ) (st : AState) (d : Component) :
    (step4Body sv tc st d).volts = setk st.volts d.id sv := by
  unfold step4Body
  split_ifs <;> rfl

theorem step4Body_currs_shape (sv tc : ℚ) (st : AState) (d : Component) :
    ∃ x, (step4Body sv tc st d).currs = setk st.currs d.id x := by
  unfold step4Body
  split_ifs <;>
    first
      | exact ⟨_, rfl⟩
      | exact ⟨_, setk_setk_same _ _ _ _⟩

theorem step4Body_pows_shape (sv tc : ℚ) (st : AState) (d : Component) :
    ∃ x, (step4Body sv tc st d).pows = setk st.pows d.id x := by
  unfold step4Body
  split_ifs <;>
    first
      | exact ⟨_, rfl⟩
      | exact ⟨_, setk_setk_same _ _ _ _⟩

theorem step4Body_keys (sv tc : ℚ) (st : AState) (d : Component)
    (hv : d.id ∈ keysOf st.volts) (hc : d.id ∈ keysOf st.currs)
    (hp : d.id ∈ keysOf st.pows) :
    keysOf (step4Body sv tc st d).volts = keysOf st.volts ∧
    keysOf (step4Body sv tc st d).currs = keysOf st.currs ∧
    keysOf (step4Body sv tc st d).pows = keysOf st.pows := by
  obtain ⟨x, hx⟩ := step4Body_currs_shape sv tc st d
  obtain ⟨y, hy⟩ := step4Body_pows_shape sv tc st d
  rw [step4Body_volts, hx, hy]
  exact ⟨keysOf_setk_mem _ _ _ hv, keysOf_setk_mem _ _ _ hc, keysOf_setk_mem _ _ _ hp⟩

theorem step4Body_issues (sv tc : ℚ) (st : AState) (d : Component) :
    (step4Body sv tc st d).issues = st.issues ++ step4NewIssues tc d := by
  unfold step4Body step4NewIssues
  split_ifs <;> simp_all

/-! ### Step 5 lemmas -/

theorem step5Body_volts (apps : List Component) (conns : List Connection)
    (ac : QMap) (sv : ℚ) (st : AState) (j : Component) :
    (step5Body apps conns ac sv st j).volts = setk st.volts j.id sv := rfl

theorem step5Body_keys (apps : List Component) (conns : List Connection)
    (ac : QMap) (sv : ℚ) (st : AState) (j : Component)
    (hv : j.id ∈ keysOf st.volts) (hc : j.id ∈ keysOf st.currs)
    (hp : j.id ∈ keysOf st.pows) :
    keysOf (step5Body apps conns ac sv st j).volts = keysOf st.volts ∧
    keysOf (step5Body apps conns ac sv st j).currs = keysOf st.currs ∧
    keysOf (step5Body apps conns ac sv st j).pows = keysOf st.pows := by
  unfold step5Body
  exact ⟨keysOf_setk_mem _ _ _ hv, keysOf_setk_mem _ _ _ hc, keysOf_setk_mem _ _ _ hp⟩

theorem step5Body_issues (apps : List Component) (conns : List Connection)
    (ac : QMap) (sv : ℚ) (st : AState) (j : Component) :
    (step5Body apps conns ac sv st j).issues = st.issues := rfl

/-! ### Step 6 lemmas -/

theorem step6Body_volts_shape (processed : List String) (apps : List Component)
    (tp : Bool) (sv tc : ℚ) (st : AState) (comp : Component) :
    (step6Body processed apps tp sv tc st comp).volts = st.volts ∨
    ∃ x, (step6Body processed apps tp sv tc st comp).volts = setk st.volts comp.id x := by
  unfold step6Body
  cases step6New processed apps tp sv tc comp with
  | none => exact Or.inl rfl
  | some pr => exact Or.inr ⟨_, rfl⟩

theorem step6Body_currs_shape (processed : List String) (apps : List Component)
    (tp : Bool) (sv tc : ℚ) (st : AState) (comp : Component) :
    (step6Body processed apps tp sv tc st comp).currs = st.currs ∨
    ∃ x, (step6Body processed apps tp sv tc st comp).currs = setk st.currs comp.id x := by
  unfold step6Body
  cases step6New processed apps tp sv tc comp with
  | none => exact Or.inl rfl
  | some pr => exact Or.inr ⟨_, rfl⟩

theorem step6Body_pows_shape (processed : List String) (apps : List Component)
    (tp : Bool) (sv tc : ℚ) (st : AState) (comp : Component) :
    (step6Body processed apps tp sv tc st comp).pows = st.pows ∨
    ∃ x, (step6Body processed apps tp sv tc st comp).pows = setk st.pows comp.id x := by
  unfold step6Body
  cases step6New processed apps tp sv tc comp with
  | none => exact Or.inl rfl
  | some pr => exact Or.inr ⟨_, rfl⟩

theorem step6NewsOf_shape (processed : List String) (sv : ℚ) (comp : Component) :
    ∀ iss ∈ step6NewsOf processed sv comp, ∃ cid p, iss = overpowerIssue cid p := by
  unfold step6NewsOf resistorIssues
  split_ifs with h1
  · cases comp.properties.powerRating with
    | none => simp
    | some pr =>
        dsimp only
        split_ifs with h2
        · intro iss hiss
          rw [List.mem_singleton] at hiss
          exact ⟨_, _, hiss⟩
        · simp
  · simp

theorem step6Body_keys (processed : List String) (apps : List Component)
    (tp : Bool) (sv tc : ℚ) (st : AState) (comp : Component)
    (hv : comp.id ∈ keysOf st.volts) (hc : comp.id ∈ keysOf st.currs)
    (hp : comp.id ∈ keysOf st.pows) :
    keysOf (step6Body processed apps tp sv tc st comp).volts = keysOf st.volts ∧
    keysOf (step6Body processed apps tp sv tc st comp).currs = keysOf st.currs ∧
    keysOf (step6Body processed apps tp sv tc st comp).pows = keysOf st.pows := by
  refine ⟨?_, ?_, ?_⟩
  · rcases step6Body_volts_shape processed apps tp sv tc st comp with h | ⟨x, h⟩
    · rw [h]
    · rw [h]; exact keysOf_setk_mem _ _ _ hv
  · rcases step6Body_currs_shape processed apps tp sv tc st comp with h | ⟨x, h⟩
    · rw [h]
    · rw [h]; exact keysOf_setk_mem _ _ _ hc
  · rcases step6Body_pows_shape processed apps tp sv tc st comp with h | ⟨x, h⟩
    · rw [h]
    · rw [h]; exact keysOf_setk_mem _ _ _ hp

theorem step6New_skip (processed : List String) (apps : List Component)
    (tp : Bool) (sv tc : ℚ) (comp : Component) (h : comp.id ∈ processed) :
    step6New processed apps tp sv tc comp = none := by
  unfold step6New
  rw [if_pos h]

theorem step6Body_getk_volts (processed : List String) (apps : List Component)
    (tp : Bool) (sv tc : ℚ) (st : AState) (comp : Component) (k : String)
    (hk : k ∈ processed) :
    getk (step6Body processed apps tp sv tc st comp).volts k = getk st.volts k := by
  by_cases hcont : comp.id ∈ processed
  · rw [step6Body, step6New_skip processed apps tp sv tc comp hcont]
  · have hne : k ≠ comp.id := by
      intro h
      subst h
      exact hcont hk
    rcases step6Body_volts_shape processed apps tp sv tc st comp with h | ⟨x, h⟩
    · rw [h]
    · rw [h]
      exact getk_setk_ne _ _ _ _ hne

theorem step6Body_issues (processed : List String) (apps : List Component)
    (tp : Bool) (sv tc : ℚ) (st : AState) (comp : Component) :
    ∃ news, (step6Body processed apps tp sv tc st comp).issues = st.issues ++ news ∧
      ∀ iss ∈ news, ∃ cid p, iss = overpowerIssue cid p := by
  unfold step6Body
  cases hn : step6New processed apps tp sv tc comp with
  | none => exact ⟨[], by simp⟩
  | some vals =>
      exact ⟨step6NewsOf processed sv comp, rfl, step6NewsOf_shape processed sv comp⟩

theorem preAnalysis_st (c : Circuit) :
    (preAnalysis c).st =
      step6Others c.components (processedOf c) (appliancesOf c) (isThreePhaseOf c)
        (sourceVoltageOf c) (totalCurrentOf c)
        (step5Junctions (junctionsOf c) (appliancesOf c) c.connections
          (applianceCurrentsOf c) (sourceVoltageOf c)
          (step4Protection (protectionDevicesOf c) (sourceVoltageOf c)
            (totalCurrentOf c)
            ((step2Appliances (appliancesOf c) (isThreePhaseOf c) (sourceVoltageOf c)
              (step1Sources (powerSourcesOf c) (sourceVoltageOf c)
                (initState c.components))).1))) := rfl

theorem totalCurrentOf_eq (c : Circuit) :
    totalCurrentOf c = valuesSum (applianceCurrentsOf c) := rfl

/-- The keys of all three maps after Steps 1-6 are exactly the initial keys
(the component ids). -/
theorem preAnalysis_keys (c : Circuit) :
    keysOf (preAnalysis c).st.volts = keysOf (initState c.components).volts ∧
    keysOf (preAnalysis c).st.currs = keysOf (initState c.components).volts ∧
    keysOf (preAnalysis c).st.pows = keysOf (initState c.components).volts := by
  obtain ⟨e1, e2⟩ := initState_maps_eq c.components
  have hmem0 : ∀ x : Component, x ∈ c.components →
      x.id ∈ keysOf (initState c.components).volts := fun x hx =>
    (initState_keys _ _).mpr (List.mem_map_of_mem _ hx)
  set st0 := initState c.components with hst0
  set st1 := step1Sources (powerSourcesOf c) (sourceVoltageOf c) st0 with hst1
  have h1v : keysOf st1.volts = keysOf st0.volts := by
    apply step1_volts_keys
    intro s hs
    exact hmem0 s (List.mem_filter.mp hs).1
  have h1c : st1.currs = st0.currs := step1_currs _ _ _
  have h1p : st1.pows = st0.pows := step1_pows _ _ _
  set p2 := step2Appliances (appliancesOf c) (isThreePhaseOf c) (sourceVoltageOf c)
    st1 with hp2
  have h2 : keysOf p2.1.volts = keysOf st1.volts ∧
      keysOf p2.1.currs = keysOf st1.currs ∧ keysOf p2.1.pows = keysOf st1.pows := by
    apply step2_keys
    intro a ha
    have ha0 := hmem0 a (List.mem_filter.mp ha).1
    refine ⟨h1v ▸ ha0, ?_, ?_⟩
    · rw [h1c, e1]; exact ha0
    · rw [h1p, e2]; exact ha0
  have h2v : keysOf p2.1.volts = keysOf st0.volts := h2.1.trans h1v
  have h2c : keysOf p2.1.currs = keysOf st0.volts := by
    rw [h2.2.1, h1c, e1]
  have h2p : keysOf p2.1.pows = keysOf st0.volts := by
    rw [h2.2.2, h1p, e2]
  set st4 := step4Protection (protectionDevicesOf c) (sourceVoltageOf c)
    (totalCurrentOf c) p2.1 with hst4
  have h4 : keysOf st4.volts = keysOf p2.1.volts ∧
      keysOf st4.currs = keysOf p2.1.currs ∧ keysOf st4.pows = keysOf p2.1.pows := by
    rw [hst4, step4Protection]
    apply foldl_keys_eq _ (·.id)
      (fun st d h1 h2 h3 => step4Body_keys _ _ st d h1 h2 h3)
    intro d hd
    have hd0 := hmem0 d (List.mem_filter.mp hd).1
    exact ⟨h2v ▸ hd0, h2c ▸ hd0, h2p ▸ hd0⟩
  set st5 := step5Junctions (junctionsOf c) (appliancesOf c) c.connections
    (applianceCurrentsOf c) (sourceVoltageOf c) st4 with hst5
  have h5 : keysOf st5.volts = keysOf st4.volts ∧
      keysOf st5.currs = keysOf st4.currs ∧ keysOf st5.pows = keysOf st4.pows := by
    rw [hst5, step5Junctions]
    apply foldl_keys_eq _ (·.id)
      (fun st j h1 h2 h3 => step5Body_keys _ _ _ _ st j h1 h2 h3)
    intro j hj
    have hj0 := hmem0 j (List.mem_filter.mp hj).1
    exact ⟨(h4.1.trans h2v) ▸ hj0, (h4.2.1.trans h2c) ▸ hj0,
      (h4.2.2.trans h2p) ▸ hj0⟩
  have h5v : keysOf st5.volts = keysOf st0.volts := h5.1.trans (h4.1.trans h2v)
  have h5c : keysOf st5.currs = keysOf st0.volts := h5.2.1.trans (h4.2.1.trans h2c)
  have h5p : keysOf st5.pows = keysOf st0.volts := h5.2.2.trans (h4.2.2.trans h2p)
  have h6 : keysOf (preAnalysis c).st.volts = keysOf st5.volts ∧
      keysOf (preAnalysis c).st.currs = keysOf st5.currs ∧
      keysOf (preAnalysis c).st.pows = keysOf st5.pows := by
    rw [preAnalysis_st, step6Others]
    apply foldl_keys_eq _ (·.id)
      (fun st comp h1 h2 h3 =>
        step6Body_keys (processedOf c) (appliancesOf c) (isThreePhaseOf c)
          (sourceVoltageOf c) (totalCurrentOf c) st comp h1 h2 h3)
    intro comp hcomp
    have hc0 := hmem0 comp hcomp
    exact ⟨h5v ▸ hc0, h5c ▸ hc0, h5p ▸ hc0⟩
  exact ⟨h6.1.trans h5v, h6.2.1.trans h5c, h6.2.2.trans h5p⟩

theorem analyzeCircuit_maps (c : Circuit) (h : powerSourcesOf c ≠ []) :
    (analyzeCircuit c).voltages = (finalState c).volts ∧
    (analyzeCircuit c).currents = (finalState c).currs ∧
    (analyzeCircuit c).power = (finalState c).pows := by
  rw [analyzeCircuit, if_neg (by simp [h])]
  exact ⟨rfl, rfl, rfl⟩

theorem analyzeCircuit_issues (c : Circuit) (h : powerSourcesOf c ≠ []) :
    ∃ ext, (analyzeCircuit c).issues = (finalState c).issues ++ ext ∧
      ∀ iss ∈ ext, iss.id = IssueId.highCurrent ∨ iss.id = IssueId.lowEfficiency := by
  rw [analyzeCircuit, if_neg (by simp [h])]
  dsimp only
  refine ⟨_, by rw [List.append_assoc]; rfl, ?_⟩
  intro iss hiss
  rcases List.mem_append.mp hiss with h1 | h1
  · left
    revert h1
    split_ifs <;> intro h1 <;>
      first
        | (rw [List.mem_singleton] at h1
           rw [h1]
           rfl)
        | simp at h1
  · right
    revert h1
    split_ifs <;> intro h1 <;>
      first
        | (rw [List.mem_singleton] at h1
           rw [h1]
           rfl)
        | simp at h1

theorem foldl_issues_mono {α : Type} (body : AState → α → AState) (l : List α)
    (hbody : ∀ st a, a ∈ l → ∃ news, (body st a).issues = st.issues ++ news) :
    ∀ (st : AState) (iss : CircuitIssue),
      iss ∈ st.issues → iss ∈ (l.foldl body st).issues := by
  induction l with
  | nil => intro st iss h; exact h
  | cons a t ih =>
      intro st iss h
      rw [List.foldl_cons]
      apply ih (fun st1 a1 ha1 => hbody st1 a1 (List.mem_cons_of_mem a ha1))
      obtain ⟨news, hn⟩ := hbody st a (List.mem_cons_self a t)
      rw [hn]
      exact List.mem_append_left _ h

theorem metadataVoltageOf_pos (c : Circuit) : 0 < metadataVoltageOf c := by
  unfold metadataVoltageOf
  cases c.metadata with
  | none => norm_num
  | some m =>
      cases hm : m.voltage with
      | none => simp only [hm]; norm_num
      | some v =>
          simp only [hm]
          split_ifs with h
          · exact h
          · norm_num

theorem sourceVoltageOf_pos (c : Circuit) : 0 < sourceVoltageOf c := by
  unfold sourceVoltageOf
  cases hf : validSourceOf c with
  | none => exact metadataVoltageOf_pos c
  | some s =>
      have := List.find?_some hf
      simpa using this

/-! ### The claims -/

/-- C1: for every circuit with at least one battery/socket power source,
every component id of the input appears as a key in the `voltages`,
`currents` and `power` maps of the analysis returned by `analyzeCircuit`. -/
theorem C1_component_ids_in_maps (c : Circuit) (h : powerSourcesOf c ≠ []) :
    ∀ comp ∈ c.components,
      comp.id ∈ keysOf (analyzeCircuit c).voltages ∧
      comp.id ∈ keysOf (analyzeCircuit c).currents ∧
      comp.id ∈ keysOf (analyzeCircuit c).power := by
  intro comp hcomp
  obtain ⟨hv, hc, hp⟩ := analyzeCircuit_maps c h
  obtain ⟨k1, k2, k3⟩ := preAnalysis_keys c
  have hid : comp.id ∈ keysOf (initState c.components).volts :=
    (initState_keys _ _).mpr (List.mem_map_of_mem _ hcomp)
  have hfv : keysOf (finalState c).volts = keysOf (preAnalysis c).st.volts := by
    rw [finalState, step7_volts, vfold_keys]
  have hfc : keysOf (finalState c).currs = keysOf (preAnalysis c).st.currs := by
    rw [finalState, step7_currs, vfold_keys]
  have hfp : keysOf (finalState c).pows = keysOf (preAnalysis c).st.pows := by
    rw [finalState, step7_pows, vfold_keys]
  refine ⟨?_, ?_, ?_⟩
  · rw [hv, hfv, k1]; exact hid
  · rw [hc, hfc, k2]; exact hid
  · rw [hp, hfp, k3]; exact hid

/-- C2: a circuit with no battery or socket component yields the all-zero
analysis whose only issue is the critical `no-power-source` issue
(`analyzeCircuit` is a total function, so it cannot throw). -/
theorem C2_no_power_source (c : Circuit) (h : powerSourcesOf c = []) :
    analyzeCircuit c =
      { voltages := [], currents := [], power := [], totalPower := 0,
        efficiency := 0, issues := [noPowerIssue] } := by
  rw [analyzeCircuit, if_pos (by simp [h])]

/-- C3 (amended): after Step 7 every stored voltage lies in `[-100, 1000]`,
every current in `[-100, 10000]` and every power in `[-1000, 10^7]` (values
in the negative grace band are kept as-is, so `[0, upper]` does not hold);
and whenever a pre-clamp value exceeds its upper bound or lies below the
negative threshold, the matching critical issue naming the component and the
offending value is present in the returned issues. -/
theorem C3_validation_amended (c : Circuit) (h : powerSourcesOf c ≠ []) :
    (∀ k x, getk (analyzeCircuit c).voltages k = some x → -100 ≤ x ∧ x ≤ 1000) ∧
    (∀ k x, getk (analyzeCircuit c).currents k = some x → -100 ≤ x ∧ x ≤ 10000) ∧
    (∀ k x, getk (analyzeCircuit c).power k = some x → -1000 ≤ x ∧ x ≤ 10000000) ∧
    (∀ k x, getk (preAnalysis c).st.volts k = some x → x > 1000 ∨ x < -100 →
      invalidVoltageIssue k x ∈ (analyzeCircuit c).issues) ∧
    (∀ k x, getk (preAnalysis c).st.currs k = some x → x > 10000 ∨ x < -100 →
      invalidCurrentIssue k x ∈ (analyzeCircuit c).issues) ∧
    (∀ k x, getk (preAnalysis c).st.pows k = some x → x > 10000000 ∨ x < -1000 →
      invalidPowerIssue k x ∈ (analyzeCircuit c).issues) := by
  obtain ⟨hv, hc, hp⟩ := analyzeCircuit_maps c h
  obtain ⟨k1, k2, k3⟩ := preAnalysis_keys c
  obtain ⟨ext, hext, _⟩ := analyzeCircuit_issues c h
  have hcov2 : ∀ k, k ∈ keysOf (preAnalysis c).st.currs →
      k ∈ keysOf (preAnalysis c).st.volts := by
    intro k hk
    rw [k1]
    rw [k2] at hk
    exact hk
  have hcov3 : ∀ k, k ∈ keysOf (preAnalysis c).st.pows →
      k ∈ keysOf (preAnalysis c).st.volts := by
    intro k hk
    rw [k1]
    rw [k3] at hk
    exact hk
  refine ⟨?_, ?_, ?_, ?_, ?_, ?_⟩
  · intro k x hget
    rw [hv, finalState, step7_volts] at hget
    exact vfold_bounded 1000 (-100) (by norm_num) (by norm_num) _ _
      (fun _ hk => Or.inl hk) k x hget
  · intro k x hget
    rw [hc, finalState, step7_currs] at hget
    exact vfold_bounded 10000 (-100) (by norm_num) (by norm_num) _ _
      (fun _ hk => Or.inl (hcov2 _ hk)) k x hget
  · intro k x hget
    rw [hp, finalState, step7_pows] at hget
    exact vfold_bounded 10000000 (-1000) (by norm_num) (by norm_num) _ _
      (fun _ hk => Or.inl (hcov3 _ hk)) k x hget
  · intro k x hget hout
    rw [hext]
    exact List.mem_append_left _
      (step7_issue_of_out_volts _ _ k x (mem_keysOf_of_getk _ _ _ hget) hget hout)
  · intro k x hget hout
    rw [hext]
    refine List.mem_append_left _
      (step7_issue_of_out_currs _ _ k x ?_ hget hout)
    exact hcov2 k (mem_keysOf_of_getk _ _ _ hget)
  · intro k x hget hout
    rw [hext]
    refine List.mem_append_left _
      (step7_issue_of_out_pows _ _ k x ?_ hget hout)
    exact hcov3 k (mem_keysOf_of_getk _ _ _ hget)

/-- C4 (amended): the voltage assigned to a battery/socket source is its own
`value` when positive, otherwise `sourceVoltageOf`: the value of the first
source in the component list with a positive value, else `metadata.voltage`
when positive, else 230.  Stated for well-formed circuits (distinct component
ids) whose resolved voltage does not exceed the 1000 V validation ceiling. -/
theorem C4_source_voltage_amended (c : Circuit) (s : Component)
    (hnd : (c.components.map (·.id)).Nodup) (hs : s ∈ c.components)
    (hty : s.ctype = "battery" ∨ s.ctype = "socket")
    (hle : (if s.value > 0 then s.value else sourceVoltageOf c) ≤ 1000) :
    getk (analyzeCircuit c).voltages s.id =
      some (if s.value > 0 then s.value else sourceVoltageOf c) := by
  have hsrc : s ∈ powerSourcesOf c := by
    rw [powerSourcesOf, List.mem_filter]
    exact ⟨hs, by simp [hty]⟩
  have h : powerSourcesOf c ≠ [] := by
    intro he
    rw [he] at hsrc
    exact (List.not_mem_nil s) hsrc
  have hinj : ∀ x ∈ c.components, x.id = s.id → x = s := by
    intro x hx hxid
    exact List.inj_on_of_nodup_map hnd hx hs hxid
  have hpos : 0 < (if s.value > 0 then s.value else sourceVoltageOf c) := by
    split_ifs with h1
    · exact h1
    · exact sourceVoltageOf_pos c
  obtain ⟨hv, _, _⟩ := analyzeCircuit_maps c h
  rw [hv, finalState, step7_volts]
  apply vfold_getk_kept
  · -- the pre-validation map holds exactly the resolved voltage
    rw [preAnalysis_st]
    have hproc : s.id ∈ processedOf c := by
      rw [processedOf]
      exact List.mem_append_left _ (List.mem_append_left _
        (List.mem_append_left _ (List.mem_map_of_mem _ hsrc)))
    rw [step6Others,
      foldl_getk_volts _ _ _
        (fun st comp _ => step6Body_getk_volts _ _ _ _ _ st comp s.id hproc)]
    have hjunc : ∀ j ∈ junctionsOf c, s.id ≠ j.id := by
      intro j hj heq
      obtain ⟨hj1, hj2⟩ := List.mem_filter.mp hj
      have hjs : j = s := hinj j hj1 heq.symm
      subst hjs
      rcases hty with h1 | h1 <;> simp [h1] at hj2
    rw [step5Junctions,
      foldl_getk_volts _ _ _
        (fun st j hj => by
          rw [step5Body_volts]
          exact getk_setk_ne _ _ _ _ (hjunc j hj))]
    have hdev : ∀ d ∈ protectionDevicesOf c, s.id ≠ d.id := by
      intro d hd heq
      obtain ⟨hd1, hd2⟩ := List.mem_filter.mp hd
      have hds : d = s := hinj d hd1 heq.symm
      subst hds
      have : d.ctype ∈ protectionTypes := List.elem_iff.mp hd2
      rcases hty with h1 | h1 <;> rw [h1] at this <;> revert this <;> decide
    rw [step4Protection,
      foldl_getk_volts _ _ _
        (fun st d hd => by
          rw [step4Body_volts]
          exact getk_setk_ne _ _ _ _ (hdev d hd))]
    have happ : s.id ∉ (appliancesOf c).map (·.id) := by
      intro hmem
      obtain ⟨a, ha, haid⟩ := List.mem_map.mp hmem
      obtain ⟨ha1, ha2⟩ := List.mem_filter.mp ha
      have has : a = s := hinj a ha1 haid
      subst has
      have : a.ctype ∈ applianceTypes := List.elem_iff.mp ha2
      rcases hty with h1 | h1 <;> rw [h1] at this <;> revert this <;> decide
    rw [step2Appliances, step2_getk_volts _ _ _ _ _ happ]
    have hndsrc : ((powerSourcesOf c).map (·.id)).Nodup :=
      List.Nodup.sublist (List.Sublist.map _ (List.filter_sublist _)) hnd
    exact step1_getk_mem _ _ s hndsrc hsrc _
  · rintro (h1 | h1) <;> linarith

theorem preAnalysis_issues_weak (c : Circuit) (iss : CircuitIssue)
    (hiss : iss ∈ (preAnalysis c).st.issues) :
    (∃ d ∈ protectionDevicesOf c, iss ∈ step4NewIssues (totalCurrentOf c) d) ∨
    (∃ cid p, iss = overpowerIssue cid p) := by
  rw [preAnalysis_st, step6Others] at hiss
  rcases foldl_issues_weak _ _ _
      (fun st a _ => step6Body_issues (processedOf c) (appliancesOf c)
        (isThreePhaseOf c) (sourceVoltageOf c) (totalCurrentOf c) st a)
      _ _ hiss with h5 | h5
  · rw [step5Junctions,
      foldl_issues_eq _ _ (fun st a => step5Body_issues _ _ _ _ st a)] at h5
    rw [step4Protection] at h5
    rcases (foldl_issues_iff _ _ _
        (fun st a _ => step4Body_issues _ _ st a) _ _).mp h5 with h4 | h4
    · rw [step2Appliances, step2_issues, step1_issues, initState_issues] at h4
      simp at h4
    · exact Or.inl h4
  · exact Or.inr h5

theorem preAnalysis_issues_of_step4 (c : Circuit) (iss : CircuitIssue)
    (h : ∃ d ∈ protectionDevicesOf c, iss ∈ step4NewIssues (totalCurrentOf c) d) :
    iss ∈ (preAnalysis c).st.issues := by
  rw [preAnalysis_st, step6Others]
  apply foldl_issues_mono _ _
    (fun st a _ => by
      obtain ⟨news, hn, _⟩ := step6Body_issues (processedOf c) (appliancesOf c)
        (isThreePhaseOf c) (sourceVoltageOf c) (totalCurrentOf c) st a
      exact ⟨news, hn⟩)
  rw [step5Junctions,
    foldl_issues_eq _ _ (fun st a => step5Body_issues _ _ _ _ st a)]
  rw [step4Protection]
  exact (foldl_issues_iff _ _ _
    (fun st a _ => step4Body_issues _ _ st a) _ _).mpr (Or.inr h)

/-- C9: for a circuit with a power source and an `mcb` component, the
critical mcb-overcurrent issue (recommending a rating of
`ceil(totalCurrent * 1.25)` A or higher, as recorded in `mcbIssue`) is
emitted exactly when the summed appliance current strictly exceeds the trip
current (`properties.tripCurrent` with JS default 16). -/
theorem C9_mcb_issue (c : Circuit) (m : Component) (h : powerSourcesOf c ≠ [])
    (hm : m ∈ c.components) (hty : m.ctype = "mcb") :
    (∃ iss ∈ (analyzeCircuit c).issues,
        iss = mcbIssue m.id (totalCurrentOf c) (jsOr m.properties.tripCurrent 16)) ↔
      totalCurrentOf c > jsOr m.properties.tripCurrent 16 := by
  obtain ⟨ext, hext, hextP⟩ := analyzeCircuit_issues c h
  constructor
  · rintro ⟨iss, hiss, rfl⟩
    rw [hext] at hiss
    rcases List.mem_append.mp hiss with h1 | h1
    · rcases step7_issues_weak _ _ _ h1 with h2 | h2
      · rcases preAnalysis_issues_weak c _ h2 with ⟨d, _, hmem⟩ | ⟨cid, p, hbad⟩
        · unfold step4NewIssues at hmem
          split_ifs at hmem with hc1 hc2
          · rw [List.mem_singleton] at hmem
            have hrr : jsOr m.properties.tripCurrent 16 =
                jsOr d.properties.tripCurrent 16 := by
              have := congrArg CircuitIssue.message hmem
              simp only [mcbIssue] at this
              exact (IssueMsg.mcbTrip.inj this).2
            rw [hrr]
            exact hc1.2
          · rw [List.mem_singleton] at hmem
            have := congrArg CircuitIssue.id hmem
            simp [mcbIssue, fuseIssue] at this
          · simp at hmem
        · have := congrArg CircuitIssue.id hbad
          simp [mcbIssue, overpowerIssue] at this
      · obtain ⟨k, v, hbad⟩ := h2
        rcases hbad with hbad | hbad | hbad <;>
          · have := congrArg CircuitIssue.id hbad
            simp [mcbIssue, invalidVoltageIssue, invalidCurrentIssue,
              invalidPowerIssue] at this
    · rcases hextP _ h1 with h2 | h2 <;> simp [mcbIssue] at h2
  · intro hgt
    have hmdev : m ∈ protectionDevicesOf c := by
      rw [protectionDevicesOf, List.mem_filter]
      refine ⟨hm, ?_⟩
      rw [hty]
      decide
    have hmem : mcbIssue m.id (totalCurrentOf c) (jsOr m.properties.tripCurrent 16)
        ∈ step4NewIssues (totalCurrentOf c) m := by
      unfold step4NewIssues
      rw [if_pos ⟨hty, hgt⟩]
      exact List.mem_singleton.mpr rfl
    refine ⟨_, ?_, rfl⟩
    rw [hext]
    exact List.mem_append_left _ (step7_issues_mono _ _ _
      (preAnalysis_issues_of_step4 c _ ⟨m, hmdev, hmem⟩))

theorem preClampScore_eq (hz : List SafetyHazard) (cp : List ComplianceCheck) :
    preClampScore hz cp =
      100 + (if hasProtectionOf hz then 20 else 0)
        - (hz.map (fun h => hazardPenalty h.severity)).sum
        - (cp.map (fun ch => compliancePenalty ch.status)).sum := by
  unfold preClampScore
  rw [foldl_sub_eq_sum, foldl_sub_eq_sum]

theorem hasProtectionOf_iff (l : List SafetyHazard) :
    hasProtectionOf l ↔
      ¬ ∃ h ∈ l, h.htype = HazardType.short_circuit ∧
        h.severity = Severity.critical := by
  unfold hasProtectionOf
  constructor
  · rintro (rfl | h)
    · simp
    · exact h
  · exact Or.inr

/-- C5 (amended): the safety score is 100 plus a flat +20 bonus unless a
critical short-circuit hazard exists, minus 25/15/8/3 per
critical/high/medium/low hazard and 12/3 per non-compliant/warning check,
clamped to `[10, 100]` when the bonus applies and `[0, 100]` otherwise; and
adding one critical hazard decreases the pre-clamp score by exactly 25
provided the added hazard is not a short-circuit hazard (or a critical
short-circuit hazard was already present) — otherwise the lost +20 bonus
makes the drop 45, not 25. -/
theorem C5_safety_score_amended :
    (∀ (hz : List SafetyHazard) (cp : List ComplianceCheck),
      calculateSafetyScore hz cp =
        min 100 (max (if hasProtectionOf hz then 10 else 0)
          (100 + (if hasProtectionOf hz then 20 else 0)
            - (hz.map (fun h => hazardPenalty h.severity)).sum
            - (cp.map (fun ch => compliancePenalty ch.status)).sum))) ∧
    (∀ (h : SafetyHazard) (hz : List SafetyHazard) (cp : List ComplianceCheck),
      h.severity = Severity.critical →
      (¬ h.htype = HazardType.short_circuit ∨
        ∃ h0 ∈ hz, h0.htype = HazardType.short_circuit ∧
          h0.severity = Severity.critical) →
      preClampScore (h :: hz) cp = preClampScore hz cp - 25) := by
  constructor
  · intro hz cp
    rw [calculateSafetyScore, preClampScore_eq]
  · intro h hz cp hsev hcase
    have hbonus : hasProtectionOf (h :: hz) ↔ hasProtectionOf hz := by
      rw [hasProtectionOf_iff, hasProtectionOf_iff]
      simp only [List.exists_mem_cons_iff]
      rcases hcase with hns | ⟨h0, hh0, hp0⟩
      · have hA : ¬ (h.htype = HazardType.short_circuit ∧
            h.severity = Severity.critical) := fun hh => hns hh.1
        constructor
        · intro h1 h2
          exact h1 (Or.inr h2)
        · intro h1 h2
          rcases h2 with h2 | h2
          · exact hA h2
          · exact h1 h2
      · constructor
        · intro h1 h2
          exact h1 (Or.inr h2)
        · intro h1
          exact absurd ⟨h0, hh0, hp0⟩ h1
    rw [preClampScore_eq, preClampScore_eq, List.map_cons, List.sum_cons, hsev]
    have : (if hasProtectionOf (h :: hz) then (20 : ℤ) else 0) =
        if hasProtectionOf hz then 20 else 0 := by
      by_cases hb : hasProtectionOf hz
      · rw [if_pos hb, if_pos (hbonus.mpr hb)]
      · rw [if_neg hb, if_neg (fun hx => hb (hbonus.mp hx))]
    rw [this]
    show 100 + _ - (hazardPenalty Severity.critical + _) - _ = _
    rw [hazardPenalty]
    ring

theorem mem_overcurrent (analysis : CircuitAnalysis) (c : Circuit)
    (hz : SafetyHazard) :
    hz ∈ analyzeOvercurrentHazards analysis c ↔
      ∃ src ∈ c.components, src.ctype = "battery" ∧
        (hz ∈ (if jsNum (getk analysis.currents src.id) > 100 then
            [necOvercurrentHazard src.id (jsNum (getk analysis.currents src.id))]
          else []) ∨
         ∃ comp ∈ c.components, hz ∈ overcurrentPerComp analysis comp) := by
  unfold analyzeOvercurrentHazards
  rw [mem_foldl_append]
  simp only [List.not_mem_nil, false_or, List.mem_filter, decide_eq_true_eq,
    overcurrentPerSource, List.mem_append, mem_foldl_append]
  constructor
  · rintro ⟨src, ⟨hs1, hs2⟩, hcase⟩
    exact ⟨src, hs1, hs2, hcase⟩
  · rintro ⟨src, hs1, hs2, hcase⟩
    exact ⟨src, ⟨hs1, hs2⟩, hcase⟩

/-- C7 (amended): the overcurrent detector checks only `battery` sources
against the 100 A NEC ceiling, and runs the per-component `currentRating`
check once per battery — so a circuit whose only sources are sockets gets no
overcurrent hazards at all, and the rating hazards require at least one
battery to exist. -/
theorem C7_overcurrent_amended (analysis : CircuitAnalysis) (c : Circuit)
    (cid : String) :
    ((∃ hz ∈ analyzeOvercurrentHazards analysis c,
        hz.id = HazardId.necOvercurrent cid ∧ hz.severity = Severity.critical) ↔
      ∃ src ∈ c.components, src.ctype = "battery" ∧ src.id = cid ∧
        jsNum (getk analysis.currents src.id) > 100) ∧
    ((∃ hz ∈ analyzeOvercurrentHazards analysis c,
        hz.id = HazardId.componentOvercurrent cid ∧ hz.severity = Severity.high) ↔
      ((∃ b ∈ c.components, b.ctype = "battery") ∧
        ∃ comp ∈ c.components, comp.id = cid ∧
          ∃ r i, comp.properties.currentRating = some r ∧
            getk analysis.currents comp.id = some i ∧ r ≠ 0 ∧ i ≠ 0 ∧ i > r)) := by
  constructor
  · constructor
    · rintro ⟨hz, hmem, hid, _⟩
      obtain ⟨src, hs1, hs2, hcase⟩ := (mem_overcurrent analysis c hz).mp hmem
      rcases hcase with hc | ⟨comp, _, hc⟩
      · revert hc
        split_ifs with hgt <;> intro hc
        · rw [List.mem_singleton] at hc
          subst hc
          have : src.id = cid := HazardId.necOvercurrent.inj hid
          exact ⟨src, hs1, hs2, this, this ▸ hgt⟩
        · simp at hc
      · exfalso
        revert hc
        unfold overcurrentPerComp
        cases comp.properties.currentRating with
        | none => simp
        | some r =>
            cases getk analysis.currents comp.id with
            | none => simp
            | some i =>
                dsimp only
                split_ifs
                · intro hc
                  rw [List.mem_singleton] at hc
                  subst hc
                  simp [componentOvercurrentHazard] at hid
                · simp
    · rintro ⟨src, hs1, hs2, hcid, hgt⟩
      refine ⟨necOvercurrentHazard src.id (jsNum (getk analysis.currents src.id)),
        ?_, by rw [hcid]; rfl, rfl⟩
      exact (mem_overcurrent analysis c _).mpr
        ⟨src, hs1, hs2, Or.inl (by rw [if_pos hgt]; exact List.mem_singleton.mpr rfl)⟩
  · constructor
    · rintro ⟨hz, hmem, hid, _⟩
      obtain ⟨src, hs1, hs2, hcase⟩ := (mem_overcurrent analysis c hz).mp hmem
      rcases hcase with hc | ⟨comp, hcomp, hc⟩
      · exfalso
        revert hc
        split_ifs <;> intro hc
        · rw [List.mem_singleton] at hc
          subst hc
          simp [necOvercurrentHazard] at hid
        · simp at hc
      · refine ⟨⟨src, hs1, hs2⟩, comp, hcomp, ?_⟩
        revert hc
        unfold overcurrentPerComp
        cases hr : comp.properties.currentRating with
        | none => simp
        | some r =>
            cases hg : getk analysis.currents comp.id with
            | none => simp
            | some i =>
                dsimp only
                split_ifs with hcond
                · intro hc
                  rw [List.mem_singleton] at hc
                  subst hc
                  have : comp.id = cid := HazardId.componentOvercurrent.inj hid
                  exact ⟨this, r, i, rfl, rfl, hcond.1, hcond.2.1, hcond.2.2⟩
                · simp
    · rintro ⟨⟨b, hb1, hb2⟩, comp, hcomp, hcid, r, i, hr, hg, hr0, hi0, hgt⟩
      refine ⟨componentOvercurrentHazard comp.id i r, ?_, by rw [hcid]; rfl, rfl⟩
      refine (mem_overcurrent analysis c _).mpr ⟨b, hb1, hb2, Or.inr ⟨comp, hcomp, ?_⟩⟩
      unfold overcurrentPerComp
      rw [hr, hg]
      dsimp only
      rw [if_pos ⟨hr0, hi0, hgt⟩]
      exact List.mem_singleton.mpr rfl

theorem shortGo_mem (analysis : CircuitAnalysis) (supplyV : ℚ) :
    ∀ (srcs : List Component) (acc : List SafetyHazard) (reported : List String),
      (∀ cid, (∃ hz ∈ acc, hz.id = HazardId.shortCircuit cid ∧
          hz.severity = Severity.critical) ↔ cid ∈ reported) →
      ∀ cid,
        (∃ hz ∈ shortGo analysis supplyV srcs acc reported,
            hz.id = HazardId.shortCircuit cid ∧ hz.severity = Severity.critical) ↔
          (cid ∈ reported ∨
            ∃ src ∈ srcs, src.id = cid ∧ shortCircuitCond analysis supplyV src) := by
  intro srcs
  induction srcs with
  | nil =>
      intro acc reported hinv cid
      rw [shortGo, hinv]
      simp
  | cons src rest ih =>
      intro acc reported hinv cid
      rw [shortGo]
      split_ifs with hcond hrep
      · rw [ih _ _ hinv]
        constructor
        · rintro (h1 | h1)
          · exact Or.inl h1
          · exact Or.inr (List.exists_mem_cons_iff _ _ _ |>.mpr (Or.inr h1))
        · rintro (h1 | h1)
          · exact Or.inl h1
          · rcases List.exists_mem_cons_iff _ _ _ |>.mp h1 with ⟨heq, _⟩ | h2
            · exact Or.inl (heq ▸ hrep)
            · exact Or.inr h2
      · have hinv2 : ∀ cid1,
            (∃ hz ∈ acc ++ [shortCircuitHazard src.id
                (jsNum (getk analysis.currents src.id))
                (jsOr (getk analysis.voltages src.id) supplyV)],
              hz.id = HazardId.shortCircuit cid1 ∧
                hz.severity = Severity.critical) ↔
            cid1 ∈ src.id :: reported := by
          intro cid1
          constructor
          · rintro ⟨hz, hmem, hid, hsev⟩
            rcases List.mem_append.mp hmem with h1 | h1
            · exact List.mem_cons_of_mem _ ((hinv cid1).mp ⟨hz, h1, hid, hsev⟩)
            · rw [List.mem_singleton] at h1
              subst h1
              have : src.id = cid1 := HazardId.shortCircuit.inj hid
              rw [← this]
              exact List.mem_cons_self _ _
          · intro h1
            rcases List.mem_cons.mp h1 with h2 | h2
            · exact ⟨shortCircuitHazard src.id _ _,
                List.mem_append_right _ (List.mem_singleton.mpr rfl),
                by rw [h2]; rfl, rfl⟩
            · obtain ⟨hz, hmem, hid, hsev⟩ := (hinv cid1).mpr h2
              exact ⟨hz, List.mem_append_left _ hmem, hid, hsev⟩
        rw [ih _ _ hinv2]
        constructor
        · rintro (h1 | h1)
          · rcases List.mem_cons.mp h1 with h2 | h2
            · exact Or.inr (List.exists_mem_cons_iff _ _ _ |>.mpr
                (Or.inl ⟨h2.symm, hcond⟩))
            · exact Or.inl h2
          · exact Or.inr (List.exists_mem_cons_iff _ _ _ |>.mpr (Or.inr h1))
        · rintro (h1 | h1)
          · exact Or.inl (List.mem_cons_of_mem _ h1)
          · rcases List.exists_mem_cons_iff _ _ _ |>.mp h1 with ⟨heq, _⟩ | h2
            · exact Or.inl (heq ▸ List.mem_cons_self _ _)
            · exact Or.inr h2
      · rw [ih _ _ hinv]
        constructor
        · rintro (h1 | h1)
          · exact Or.inl h1
          · exact Or.inr (List.exists_mem_cons_iff _ _ _ |>.mpr (Or.inr h1))
        · rintro (h1 | h1)
          · exact Or.inl h1
          · rcases List.exists_mem_cons_iff _ _ _ |>.mp h1 with ⟨heq, hc⟩ | h2
            · exact absurd hc hcond
            · exact Or.inr h2

/-- C8 (amended): the short-circuit detector flags a source exactly when its
effective voltage `V = voltages[id] || supplyVoltage` satisfies
`0 < V ≤ 600` AND its current exceeds both the absolute floor (150 A, or
50 A when the metadata supply voltage is at most 50 V) and `3 × V`
(`shortCircuitCond`); the claim wrongly asserted that no condition on the
voltage other than the floor selection can suppress the hazard. -/
theorem C8_short_circuit_amended (analysis : CircuitAnalysis) (c : Circuit)
    (cid : String) :
    (∃ hz ∈ analyzeShortCircuitHazards analysis c,
        hz.id = HazardId.shortCircuit cid ∧ hz.severity = Severity.critical) ↔
      ∃ src ∈ powerSourcesOf c, src.id = cid ∧
        shortCircuitCond analysis (metadataVoltageOf c) src := by
  rw [analyzeShortCircuitHazards,
    shortGo_mem analysis (metadataVoltageOf c) (powerSourcesOf c) [] []
      (by intro cid1; simp)]
  simp

theorem mem_dedupStringsGo (l : List String) :
    ∀ (seen : List String) (a : String),
      a ∈ dedupStringsGo seen l ↔ a ∈ l ∧ a ∉ seen := by
  induction l with
  | nil =>
      intro seen a
      rw [dedupStringsGo]
      simp
  | cons r rest ih =>
      intro seen a
      rw [dedupStringsGo]
      split_ifs with hr
      · rw [ih]
        constructor
        · rintro ⟨h1, h2⟩
          exact ⟨List.mem_cons_of_mem _ h1, h2⟩
        · rintro ⟨h1, h2⟩
          rcases List.mem_cons.mp h1 with h3 | h3
          · exact absurd (h3 ▸ hr) h2
          · exact ⟨h3, h2⟩
      · rw [List.mem_cons, ih]
        constructor
        · rintro (h1 | ⟨h1, h2⟩)
          · subst h1
            exact ⟨List.mem_cons_self _ _, hr⟩
          · exact ⟨List.mem_cons_of_mem _ h1,
              fun hs => h2 (List.mem_cons_of_mem _ hs)⟩
        · rintro ⟨h1, h2⟩
          by_cases ha : a = r
          · exact Or.inl ha
          · rcases List.mem_cons.mp h1 with h3 | h3
            · exact absurd h3 ha
            · refine Or.inr ⟨h3, fun hs => ?_⟩
              rcases List.mem_cons.mp hs with h4 | h4
              · exact ha h4
              · exact h2 h4

theorem recsSpec (U : List SafetyHazard) (C : List ComplianceCheck) :
    dedupStringsGo [] (generateSafetyRecommendations U C) ≠ [] ∧
    (U = [] → "Circuit appears safe - continue monitoring" ∈
      dedupStringsGo [] (generateSafetyRecommendations U C)) ∧
    (U ≠ [] → "Review all safety hazards before operation" ∈
        dedupStringsGo [] (generateSafetyRecommendations U C) ∧
      "Consider adding protective devices (fuses, circuit breakers)" ∈
        dedupStringsGo [] (generateSafetyRecommendations U C)) := by
  have hsafe : U = [] → "Circuit appears safe - continue monitoring" ∈
      dedupStringsGo [] (generateSafetyRecommendations U C) := by
    intro hU
    rw [mem_dedupStringsGo]
    refine ⟨?_, by simp⟩
    simp [generateSafetyRecommendations, hU]
  have hr1 : U ≠ [] → "Review all safety hazards before operation" ∈
      dedupStringsGo [] (generateSafetyRecommendations U C) := by
    intro hU
    rw [mem_dedupStringsGo]
    refine ⟨?_, by simp⟩
    simp [generateSafetyRecommendations, List.isEmpty_iff, hU]
  have hr2 : U ≠ [] → "Consider adding protective devices (fuses, circuit breakers)" ∈
      dedupStringsGo [] (generateSafetyRecommendations U C) := by
    intro hU
    rw [mem_dedupStringsGo]
    refine ⟨?_, by simp⟩
    simp [generateSafetyRecommendations, List.isEmpty_iff, hU]
  refine ⟨?_, hsafe, fun hU => ⟨hr1 hU, hr2 hU⟩⟩
  by_cases hU : U = []
  · exact List.ne_nil_of_mem (hsafe hU)
  · exact List.ne_nil_of_mem (hr1 hU)

/-- C10: the recommendation list returned by `assessSafety` is never empty:
with no (deduplicated) hazards it contains the monitoring message, and with
at least one hazard it contains both general safety messages. -/
theorem C10_recommendations (analysis : CircuitAnalysis) (c : Circuit) :
    (assessSafety analysis c).recommendations ≠ [] ∧
    ((assessSafety analysis c).hazards = [] →
      "Circuit appears safe - continue monitoring" ∈
        (assessSafety analysis c).recommendations) ∧
    ((assessSafety analysis c).hazards ≠ [] →
      "Review all safety hazards before operation" ∈
        (assessSafety analysis c).recommendations ∧
      "Consider adding protective devices (fuses, circuit breakers)" ∈
        (assessSafety analysis c).recommendations) :=
  recsSpec (assessSafety analysis c).hazards
    [checkNECCompliance (validateAnalysisValues analysis c) c,
     checkOSHACompliance (validateAnalysisValues analysis c) c,
     checkNFPACompliance (validateAnalysisValues analysis c) c]

/-- C6: evaluation of the arc-flash detector at a 230 V source carrying 1 A.
The code flags a critical arc-flash hazard because it passes the literal 18
(intended, per its own comment, as the 18 inch working distance) as the
`clearingTime` argument, whereas the specified energy with `t = 0.1` s is
far below the 1.2 cal/cm2 ceiling, so the claim says no hazard may be
flagged here. -/
theorem C6_arc_flash_code_eval :
    (∃ hz ∈ analyzeArcFlashHazards arcAnalysisC6 arcCircuitC6,
        hz.id = HazardId.arcFlash "s1" ∧ hz.severity = Severity.critical) ∧
    specArcFlashEnergy 230 (min ((1 : ℚ) * 10) 10000) ≤ 1.2 := by
  decide

/-- C3 counterexample: an appliance with `operatingVoltage = -50` keeps the
final voltage `-50` (outside `[0, 1000]`) and no invalid-voltage issue is
raised, because Step 7 only reacts to values above 1000 or below -100. -/
theorem C3_counterexample :
    getk (analyzeCircuit negVoltageCircuit).voltages "fan1" = some (-50) ∧
    ¬ (0 : ℚ) ≤ -50 ∧
    ∀ iss ∈ (analyzeCircuit negVoltageCircuit).issues,
      iss.id ≠ IssueId.invalidVoltage "fan1" := by
  decide

/-- C4 counterexample: a zero-valued source in a circuit that also contains a
positive-valued source receives that other source's value (12 V), not the
`metadata.voltage`-then-230 fallback (100 V) the claim prescribes. -/
theorem C4_counterexample :
    getk (analyzeCircuit zeroValueSourceCircuit).voltages "b" = some 12 ∧
    metadataVoltageOf zeroValueSourceCircuit = 100 ∧ (12 : ℚ) ≠ 100 := by
  decide

/-- C5 counterexample: adding one critical short-circuit hazard to an empty
baseline drops the pre-clamp score from 120 to 75 — a drop of 45 (25 for the
hazard plus the lost +20 bonus), not the flat 25 the claim asserts. -/
theorem C5_counterexample :
    preClampScore [critShortHazardX] [] = 75 ∧ preClampScore [] [] = 120 ∧
    (75 : ℤ) ≠ 120 - 25 := by
  decide

/-- C7 counterexample: a socket source carrying 200 A (far above the 100 A
NEC ceiling) produces no overcurrent hazard, because the detector iterates
only `battery` components. -/
theorem C7_counterexample :
    analyzeOvercurrentHazards socketOnlyAnalysis socketOnlyCircuit = [] ∧
    jsNum (getk socketOnlyAnalysis.currents "s1") > 100 := by
  decide

/-- C8 counterexample: a source at a validated 650 V carrying 2000 A exceeds
both the 150 A floor and 3x its voltage, yet no short-circuit hazard is
flagged because an additional `voltage <= 600` guard suppresses it. -/
theorem C8_counterexample :
    analyzeShortCircuitHazards hv650Analysis hv650Circuit = [] ∧
    jsNum (getk hv650Analysis.currents "b1") > 150 ∧
    jsNum (getk hv650Analysis.currents "b1") >
      jsNum (getk hv650Analysis.voltages "b1") * 3 := by
  decide

theorem C1_witness :
    "b1" ∈ keysOf (analyzeCircuit wC1).voltages ∧
    "b1" ∈ keysOf (analyzeCircuit wC1).currents ∧
    "b1" ∈ keysOf (analyzeCircuit wC1).power :=
  C1_component_ids_in_maps wC1 (by decide) wBat (by decide)

theorem C2_witness :
    analyzeCircuit wC2 = ⟨[], [], [], 0, 0, [noPowerIssue]⟩ :=
  C2_no_power_source wC2 (by decide)

theorem C3_witness : (-100 : ℚ) ≤ 230 ∧ (230 : ℚ) ≤ 1000 :=
  (C3_validation_amended wC1 (by decide)).1 "b1" 230 (by decide)

theorem C4_witness :
    getk (analyzeCircuit wC1).voltages "b1" =
      some (if wBat.value > 0 then wBat.value else sourceVoltageOf wC1) :=
  C4_source_voltage_amended wC1 wBat (by decide) (by decide) (Or.inl rfl)
    (by decide)

theorem C5_witness :
    preClampScore [necOvercurrentHazard "x" 200] [] = preClampScore [] [] - 25 :=
  C5_safety_score_amended.2 (necOvercurrentHazard "x" 200) [] [] rfl
    (Or.inl (by decide))

theorem C7_witness :
    ∃ hz ∈ analyzeOvercurrentHazards wAn7 wC1,
      hz.id = HazardId.necOvercurrent "b1" ∧ hz.severity = Severity.critical :=
  (C7_overcurrent_amended wAn7 wC1 "b1").1.mpr ⟨wBat, by decide, rfl, rfl, by decide⟩

theorem C8_witness :
    ∃ hz ∈ analyzeShortCircuitHazards wAn8 wC1,
      hz.id = HazardId.shortCircuit "b1" ∧ hz.severity = Severity.critical :=
  (C8_short_circuit_amended wAn8 wC1 "b1").mpr ⟨wBat, by decide, rfl, by decide⟩

theorem C9_witness :
    ∃ iss ∈ (analyzeCircuit wC9).issues,
      iss = mcbIssue "m1" (totalCurrentOf wC9) (jsOr wMcb.properties.tripCurrent 16) :=
  (C9_mcb_issue wC9 wMcb (by decide) (by decide) rfl).mpr (by decide)

theorem C10_witness :
    "Review all safety hazards before operation" ∈
      (assessSafety emptyAnalysisW emptyCircuitW).recommendations :=
  ((C10_recommendations emptyAnalysisW emptyCircuitW).2.2 (by decide)).1

end ElectriSim

